import Mathlib

/-!
llm-c-and-go: GPT-2 checkpoint layout and loader

A shallow embedding of `llmgo/internal/config/gpt2.go` and
`llmgo/internal/model/gpt2.go`, followed by theorems about the parameter
layout, the named-parameter accessor and the checkpoint loader.

Modelling conventions

* Go `int` is the 64-bit signed integer: a value is an `Int`, and every
  addition and multiplication of the source goes through `wrap64`
  (two's-complement wrap-around modulo `2^64`).
* Go `map[string]int` is an association list with unique keys; `mapSet`
  overwrites the value of a key already present and appends a new key at
  the end, so the list order is the order of first insertion.
* `float32` values are carried as their 32-bit patterns.
* A call that returns `(value, error)` returns an `Outcome`; a run-time
  panic (slice bounds, `make` length out of range) is the `panic` outcome.
* The allocation limit `maxAlloc` of the Go runtime, a constant of the
  platform, is a parameter of the loader.
-/

namespace LlmGo

/-! ## Machine integers -/

/-- Two's-complement wrap-around of an integer into the `int64` range. -/
def wrap64 (x : Int) : Int := (x + 2 ^ 63) % 2 ^ 64 - 2 ^ 63

/-- Go `a + b` on `int`. -/
def add64 (a b : Int) : Int := wrap64 (a + b)

/-- Go `a * b` on `int`. -/
def mul64 (a b : Int) : Int := wrap64 (a * b)

/-! ## `config.GPT2Config` -/

/-- The struct `GPT2Config` of `internal/config/gpt2.go`. -/
structure GPT2Config where
  MaxSeqLen : Int
  VocabSize : Int
  NumLayers : Int
  NumHeads : Int
  Channels : Int
  PaddedVocabSize : Int
  deriving DecidableEq, Repr

/-- The function `NewDefaultConfig`. -/
def NewDefaultConfig : GPT2Config :=
  { MaxSeqLen := 1024
    VocabSize := 50257
    PaddedVocabSize := 50304
    NumLayers := 12
    NumHeads := 12
    Channels := 768 }

/-- The method `(*GPT2Config).Validate`. The first component is the receiver
after the call, the second the returned error (`none` is `nil`). -/
def GPT2Config.Validate (c : GPT2Config) : GPT2Config × Option String :=
  if c.MaxSeqLen ≤ 0 then
    (c, some "max_seq_len must be greater than 0")
  else if c.VocabSize ≤ 0 then
    (c, some "vocab_size must be greater than 0")
  else if c.PaddedVocabSize ≤ 0 then
    (c, some "padded_vocab_size must be greater than 0")
  else if c.NumLayers ≤ 0 then
    (c, some "num_layers must be greater than 0")
  else if c.NumHeads ≤ 0 then
    (c, some "num_heads must be greater than 0")
  else if c.Channels ≤ 0 then
    (c, some "channels must be greater than 0")
  else
    (c, none)

/-! ## Go maps from `string` to `int` -/

/-- A Go `map[string]int`, as an association list in first-insertion order. -/
abbrev GoMap := List (String × Int)

/-- The assignment `m[k] = v`. -/
def mapSet : GoMap → String → Int → GoMap
  | [], k, v => [(k, v)]
  | (k', v') :: rest, k, v =>
    if k' = k then (k, v) :: rest else (k', v') :: mapSet rest k v

/-- The lookup `v, ok := m[k]`; `none` stands for `ok = false`. -/
def mapGet : GoMap → String → Option Int
  | [], _ => none
  | (k', v') :: rest, k => if k' = k then some v' else mapGet rest k

/-- The key set of a map, in first-insertion order. -/
def mapKeys (m : GoMap) : List String := m.map Prod.fst

/-- The plain index expression `m[k]`: the zero value when the key is absent. -/
def mapIndex (m : GoMap) (k : String) : Int := (mapGet m k).getD 0

/-! ## `model.GPT2` -/

/-- A `float32`, carried as its IEEE-754 bit pattern. -/
abbrev Float32 := Nat

/-- The struct `GPT2` of `internal/model/gpt2.go` (the mutex is not modelled;
`Config` is the pointee of the non-nil `*config.GPT2Config`). -/
structure GPT2 where
  Config : GPT2Config
  Parameters : List Float32
  ParamOffsets : GoMap
  ParamSizes : GoMap
  NumParameters : Int
  BatchSize : Int
  SeqLen : Int
  MeanLoss : Float32
  deriving DecidableEq, Repr

/-- Outcome of a call returning `(value, error)`. -/
inductive Outcome (α : Type) where
  | ok : α → Outcome α
  | error : String → Outcome α
  | panic : String → Outcome α
  deriving DecidableEq, Repr

/-! ## `calculateParameterSizes` -/

/-- The maps under construction together with the local variable `offset`. -/
structure LayoutState where
  ParamOffsets : GoMap
  ParamSizes : GoMap
  offset : Int
  deriving DecidableEq, Repr

/-- The three statements the source repeats for every tensor:
`m.ParamOffsets[name] = offset; m.ParamSizes[name] = size; offset += size`. -/
def emit (st : LayoutState) (name : String) (size : Int) : LayoutState :=
  { ParamOffsets := mapSet st.ParamOffsets name st.offset
    ParamSizes := mapSet st.ParamSizes name size
    offset := add64 st.offset size }

/-- The value of `fmt.Sprintf("Layer %d", layer)` for a loop index `layer`. -/
def layerName (layer : Nat) : String := "Layer " ++ toString layer

/-- The body of the loop over the layers, for the iteration `layer`. -/
def layerBody (cfg : GPT2Config) (st : LayoutState) (layer : Nat) : LayoutState :=
  let pre := layerName layer
  -- LayerNorm 1
  let st := emit st (pre ++ "_ln1.weight") cfg.Channels
  let st := emit st (pre ++ "_ln1.bias") cfg.Channels
  -- Attention heads
  let st := emit st (pre ++ ".attn.qkv.weight") (mul64 (mul64 3 cfg.Channels) cfg.Channels)
  let st := emit st (pre ++ ".attn.qkv.bias") (mul64 3 cfg.Channels)
  -- Attention projection weights and bias
  let st := emit st (pre ++ ".attn.proj.weight") (mul64 cfg.Channels cfg.Channels)
  let st := emit st (pre ++ ".attn.proj.bias") cfg.Channels
  -- Layer norm 2 weights and bias
  let st := emit st (pre ++ ".ln_2.weight") cfg.Channels
  let st := emit st (pre ++ ".ln_2.bias") cfg.Channels
  -- MLP FC (expansion) weights and bias
  let st := emit st (pre ++ ".mlp.fc.weight") (mul64 (mul64 4 cfg.Channels) cfg.Channels)
  let st := emit st (pre ++ ".mlp.fc.bias") (mul64 4 cfg.Channels)
  -- MLP projection weights and bias
  let st := emit st (pre ++ ".mlp.proj.weight") (mul64 (mul64 cfg.Channels 4) cfg.Channels)
  let st := emit st (pre ++ ".mlp.proj.bias") cfg.Channels
  st

/-- The state of `calculateParameterSizes` just before `m.NumParameters = offset`.
The loop `for layer := 0; layer < NumLayers; layer++` runs for the indices
`0, 1, ..., NumLayers - 1` and not at all when `NumLayers <= 0`. -/
def layoutRun (cfg : GPT2Config) (offsets sizes : GoMap) : LayoutState :=
  let st : LayoutState := { ParamOffsets := offsets, ParamSizes := sizes, offset := 0 }
  -- First we do token embeddings
  let st := emit st "wte" (mul64 cfg.PaddedVocabSize cfg.Channels)
  -- Next is position embeddings
  let st := emit st "wpe" (mul64 cfg.MaxSeqLen cfg.Channels)
  -- We have to iterate through the layers now
  let st := (List.range cfg.NumLayers.toNat).foldl (layerBody cfg) st
  -- Final layer norm weights and bias
  let st := emit st "ln_f.weight" cfg.Channels
  let st := emit st "ln_f.bias" cfg.Channels
  st

/-- The method `(*GPT2).calculateParameterSizes`: the model after the call. -/
def calculateParameterSizes (m : GPT2) : GPT2 :=
  let st := layoutRun m.Config m.ParamOffsets m.ParamSizes
  { m with
    ParamOffsets := st.ParamOffsets
    ParamSizes := st.ParamSizes
    NumParameters := st.offset }

/-- The local `totalParams` at the end of `calculateParameterSizes`:
`for _, size := range m.ParamSizes { totalParams += size }`, visiting the
entries in the order `entries`. -/
def totalParamsOver (entries : List (String × Int)) : Int :=
  entries.foldl (fun acc kv => add64 acc kv.2) 0

/-- The struct literal of `NewGPT2FromCheckpoint`: a model with the given
configuration, an empty buffer and empty maps. -/
def newModel (cfg : GPT2Config) : GPT2 :=
  { Config := cfg
    Parameters := []
    ParamOffsets := []
    ParamSizes := []
    NumParameters := 0
    BatchSize := 0
    SeqLen := 0
    MeanLoss := 0 }

/-- The layout of a configuration: `calculateParameterSizes` on the fresh model. -/
def layoutOf (cfg : GPT2Config) : GPT2 := calculateParameterSizes (newModel cfg)

/-! ## `GetParameter` -/

/-- The slice expression `s[lo:hi]` on a slice whose capacity is its length. -/
def sliceExpr (s : List Float32) (lo hi : Int) : Option (List Float32) :=
  if 0 ≤ lo ∧ lo ≤ hi ∧ hi ≤ (s.length : Int) then
    some ((s.drop lo.toNat).take (hi.toNat - lo.toNat))
  else
    none

/-- The method `(*GPT2).GetParameter`. -/
def GetParameter (m : GPT2) (name : String) : Outcome (List Float32) :=
  match mapGet m.ParamOffsets name with
  | none => Outcome.error ("parameter " ++ name ++ " not found")
  | some offset =>
    let size := mapIndex m.ParamSizes name
    match sliceExpr m.Parameters offset (add64 offset size) with
    | some view => Outcome.ok view
    | none => Outcome.panic "slice bounds out of range"

/-! ## `NewGPT2FromCheckpoint` -/

/-- One byte of a file. -/
abbrev Byte := Fin 256

/-- The unsigned 32-bit value of four bytes in little-endian order. -/
def leUint32 (b0 b1 b2 b3 : Byte) : Nat :=
  b0.val + 256 * b1.val + 65536 * b2.val + 16777216 * b3.val

/-- The `int32` held by four bytes in little-endian order. -/
def leInt32 (b0 b1 b2 b3 : Byte) : Int :=
  let u := leUint32 b0 b1 b2 b3
  if u < 2 ^ 31 then (u : Int) else (u : Int) - 2 ^ 32

/-- Decoding of a byte buffer into `int32` values, four bytes each. -/
def decodeInt32s : List Byte → List Int
  | b0 :: b1 :: b2 :: b3 :: rest => leInt32 b0 b1 b2 b3 :: decodeInt32s rest
  | _ => []

/-- Decoding of a byte buffer into `float32` values, four bytes each. -/
def decodeFloat32s : List Byte → List Float32
  | b0 :: b1 :: b2 :: b3 :: rest => leUint32 b0 b1 b2 b3 :: decodeFloat32s rest
  | _ => []

/-- The call `io.ReadFull` for `n` bytes on a file whose unread part is `rest`:
the bytes read and the new unread part, or the error `EOF` (nothing left) or
`unexpected EOF` (too little left). Asking for no bytes succeeds. -/
def readFull (n : Nat) (rest : List Byte) : Except String (List Byte × List Byte) :=
  if n = 0 then Except.ok ([], rest)
  else if rest.length = 0 then Except.error "EOF"
  else if rest.length < n then Except.error "unexpected EOF"
  else Except.ok (rest.take n, rest.drop n)

/-- The index expression `header[i]` on the 256-entry header. -/
def headerAt (header : List Int) (i : Nat) : Int := header.getD i 0

/-- The configuration built from the header entries 2 to 7. -/
def configOfHeader (header : List Int) : GPT2Config :=
  { MaxSeqLen := headerAt header 2
    VocabSize := headerAt header 3
    NumLayers := headerAt header 4
    NumHeads := headerAt header 5
    Channels := headerAt header 6
    PaddedVocabSize := headerAt header 7 }

/-- The call `make([]float32, n)` with the check of `makeslice` in the Go
runtime; `none` stands for the panic `makeslice: len out of range`. The call
panics when `n` is negative, when the size `4 * n` in bytes overflows the
64-bit `uintptr`, and when that size exceeds `maxAlloc`, the allocation limit
of the runtime, a constant of the platform. An allocation that passes the
check yields `n` zero values. -/
def makeFloat32s (maxAlloc : Nat) (n : Int) : Option (List Float32) :=
  if n < 0 ∨ 2 ^ 64 ≤ 4 * n ∨ (maxAlloc : Int) < 4 * n then none
  else some (List.replicate n.toNat 0)

/-- The end of `NewGPT2FromCheckpoint`, from `make([]float32, model.NumParameters)`
on: allocation of the buffer, under the allocation limit `maxAlloc` of the
runtime, and the read of the parameters from the unread part `rest` of the
file into the buffer. `file.Seek` and `file.Stat` succeed on an open regular
file, and what they return is only printed. -/
def readParameters (maxAlloc : Nat) (model : GPT2) (rest : List Byte) : Outcome GPT2 :=
  match makeFloat32s maxAlloc model.NumParameters with
  | none => Outcome.panic "makeslice: len out of range"
  | some buffer =>
    match readFull (4 * buffer.length) rest with
    | Except.error e => Outcome.error ("failed to read parameters: " ++ e)
    | Except.ok (paramBytes, _) =>
      Outcome.ok { model with Parameters := decodeFloat32s paramBytes }

/-- The part of `NewGPT2FromCheckpoint` that follows the read of the header:
the checks of magic number and version, the configuration and its validation,
the layout and the read of the parameters. -/
def loadAfterHeader (maxAlloc : Nat) (header : List Int) (rest : List Byte) : Outcome GPT2 :=
  if headerAt header 0 ≠ 20240326 then
    Outcome.error ("invalid magic number in checkpoint: " ++ toString (headerAt header 0))
  else if headerAt header 1 ≠ 3 then
    Outcome.error ("invalid version in checkpoint: " ++ toString (headerAt header 1)
      ++ ", expected 3")
  else
    match (configOfHeader header).Validate.2 with
    | some e => Outcome.error ("invalid config: " ++ e)
    | none =>
      readParameters maxAlloc (calculateParameterSizes (newModel (configOfHeader header))) rest

/-- The body of `NewGPT2FromCheckpoint` once the file is open, on the file
content `file`. -/
def loadCheckpoint (maxAlloc : Nat) (file : List Byte) : Outcome GPT2 :=
  match readFull (4 * 256) file with
  | Except.error e => Outcome.error ("failed to read header: " ++ e)
  | Except.ok (headerBytes, rest) => loadAfterHeader maxAlloc (decodeInt32s headerBytes) rest

/-- The function `NewGPT2FromCheckpoint`; `maxAlloc` is the allocation limit
of the Go runtime and `fs` the file system: the content of the file at a path,
or the error of `os.Open`. -/
def NewGPT2FromCheckpoint (maxAlloc : Nat) (fs : String → Except String (List Byte))
    (checkPointPath : String) : Outcome GPT2 :=
  match fs checkPointPath with
  | Except.error e => Outcome.error ("failed to open checkpoint file: " ++ e)
  | Except.ok file => loadCheckpoint maxAlloc file

/-- A length that passes the check of `makeslice` for `float32` elements: not
negative, its size `4 * n` in bytes within the 64-bit `uintptr` and within the
allocation limit `maxAlloc` of the runtime. -/
def withinAllocLimit (maxAlloc : Nat) (n : Int) : Prop :=
  0 ≤ n ∧ 4 * n < 2 ^ 64 ∧ 4 * n ≤ (maxAlloc : Int)

instance (maxAlloc : Nat) (n : Int) : Decidable (withinAllocLimit maxAlloc n) := by
  unfold withinAllocLimit
  infer_instance

/-- The allocation limit `maxAlloc` of the Go runtime on 64-bit Linux: `2^48`
bytes. -/
def linuxMaxAlloc : Nat := 2 ^ 48

/-! ## The emission sequence of the layout

`calculateParameterSizes` is a straight-line sequence of `emit` steps; the
definitions below name that sequence so that the theorems can speak about
construction order. -/

/-- The key suffix and the size of the twelve tensors of one layer, in the
order in which `layerBody` emits them. -/
def layerTensors (cfg : GPT2Config) : List (String × Int) :=
  [ ("_ln1.weight", cfg.Channels)
  , ("_ln1.bias", cfg.Channels)
  , (".attn.qkv.weight", mul64 (mul64 3 cfg.Channels) cfg.Channels)
  , (".attn.qkv.bias", mul64 3 cfg.Channels)
  , (".attn.proj.weight", mul64 cfg.Channels cfg.Channels)
  , (".attn.proj.bias", cfg.Channels)
  , (".ln_2.weight", cfg.Channels)
  , (".ln_2.bias", cfg.Channels)
  , (".mlp.fc.weight", mul64 (mul64 4 cfg.Channels) cfg.Channels)
  , (".mlp.fc.bias", mul64 4 cfg.Channels)
  , (".mlp.proj.weight", mul64 (mul64 cfg.Channels 4) cfg.Channels)
  , (".mlp.proj.bias", cfg.Channels) ]

/-- The twelve key suffixes of `layerBody`, in emission order. -/
def layerSuffixes : List String :=
  [ "_ln1.weight", "_ln1.bias", ".attn.qkv.weight", ".attn.qkv.bias"
  , ".attn.proj.weight", ".attn.proj.bias", ".ln_2.weight", ".ln_2.bias"
  , ".mlp.fc.weight", ".mlp.fc.bias", ".mlp.proj.weight", ".mlp.proj.bias" ]

/-- The twelve `(name, size)` pairs emitted by the iteration `layer`. -/
def layerEmissions (cfg : GPT2Config) (layer : Nat) : List (String × Int) :=
  (layerTensors cfg).map (fun p => (layerName layer ++ p.1, p.2))

/-- The `(name, size)` pairs emitted by the iterations `0, ..., n - 1`. -/
def layersEmissions (cfg : GPT2Config) : Nat → List (String × Int)
  | 0 => []
  | n + 1 => layersEmissions cfg n ++ layerEmissions cfg n

/-- Every `(name, size)` pair emitted by `calculateParameterSizes`, in
construction order. -/
def emissions (cfg : GPT2Config) : List (String × Int) :=
  [ ("wte", mul64 cfg.PaddedVocabSize cfg.Channels)
  , ("wpe", mul64 cfg.MaxSeqLen cfg.Channels) ]
  ++ layersEmissions cfg cfg.NumLayers.toNat
  ++ [ ("ln_f.weight", cfg.Channels), ("ln_f.bias", cfg.Channels) ]

/-- The names of the regions in construction order: token embedding,
position embedding, the twelve regions of layer 0, of layer 1, ..., the final
layer-norm weight and bias. -/
def constructionOrder (cfg : GPT2Config) : List String :=
  (emissions cfg).map Prod.fst

/-- A run of `emit` steps. -/
def emitAll (st : LayoutState) (es : List (String × Int)) : LayoutState :=
  es.foldl (fun st e => emit st e.1 e.2) st

/-- The offsets handed out by a run of `emit` steps that starts with the
running offset `start`. -/
def offsetsFrom : Int → List (String × Int) → List (String × Int)
  | _, [] => []
  | start, (name, size) :: rest => (name, start) :: offsetsFrom (add64 start size) rest

/-- The running offset after a run of `emit` steps. -/
def offsetAfter : Int → List (String × Int) → Int
  | start, [] => start
  | start, (_, size) :: rest => offsetAfter (add64 start size) rest

/-- The closed form of the total element count, in unbounded integers:
`padded_vocab_size*C + max_seq_len*C + num_layers*(12*C*C + 13*C) + 2*C`. -/
def exactTotal (cfg : GPT2Config) : Int :=
  cfg.PaddedVocabSize * cfg.Channels + cfg.MaxSeqLen * cfg.Channels
    + (cfg.NumLayers.toNat : Int) * (12 * cfg.Channels * cfg.Channels + 13 * cfg.Channels)
    + 2 * cfg.Channels

/-- A named region: name, offset and size. -/
abbrev Region := String × Int × Int

/-- The regions of a model in first-insertion order of `ParamOffsets`: every
key with `ParamOffsets[key]` and `ParamSizes[key]`. -/
def regionsOf (m : GPT2) : List Region :=
  m.ParamOffsets.map (fun p => (p.1, p.2, mapIndex m.ParamSizes p.1))

/-- The regions handed out by a run of `emit` steps that starts with the
running offset `start`. -/
def regionsFrom : Int → List (String × Int) → List Region
  | _, [] => []
  | start, (name, size) :: rest => (name, start, size) :: regionsFrom (add64 start size) rest

/-! ## Writing a checkpoint, as the tests do -/

/-- The four bytes `binary.Write` produces for an `int32` in little-endian
order. -/
def int32Bytes (v : Int) : List Byte :=
  let u := (v % 2 ^ 32).toNat
  [ Fin.ofNat (u % 256), Fin.ofNat (u / 256 % 256), Fin.ofNat (u / 65536 % 256)
  , Fin.ofNat (u / 16777216 % 256) ]

/-- The 1024 bytes of a header as the tests write it: `make([]int32, 256)`
with the leading entries set to `first`, through `binary.Write`. -/
def writeHeader (first : List Int) : List Byte :=
  ((first ++ List.replicate (256 - first.length) 0).take 256).flatMap int32Bytes

/-! ## Concrete configurations, models and files -/

/-- A small valid configuration. -/
def smallConfig : GPT2Config :=
  { MaxSeqLen := 2, VocabSize := 3, NumLayers := 1, NumHeads := 1, Channels := 2
    PaddedVocabSize := 4 }

/-- A valid configuration, every field an `int32`, whose layout total is
`2^64 + 2^30` in unbounded integers. -/
def wrapConfig : GPT2Config :=
  { MaxSeqLen := 2147483635, VocabSize := 1, NumLayers := 1, NumHeads := 1
    Channels := 1073741824, PaddedVocabSize := 2147483647 }

/-- A valid configuration, every field an `int32`, whose layout total is
exactly `2^64` in unbounded integers. -/
def zeroTotalConfig : GPT2Config :=
  { MaxSeqLen := 2147483634, VocabSize := 1, NumLayers := 1, NumHeads := 1
    Channels := 1073741824, PaddedVocabSize := 2147483647 }

/-- A checkpoint file of 1024 bytes: the header of `zeroTotalConfig` and no
parameter data. -/
def zeroTotalFile : List Byte :=
  writeHeader [20240326, 3, 2147483634, 1, 1, 1, 1073741824, 2147483647]

/-- The model `NewGPT2FromCheckpoint` returns for `zeroTotalFile`. -/
def zeroTotalModel : GPT2 := { layoutOf zeroTotalConfig with Parameters := [] }

/-- A checkpoint file for `smallConfig`: the header and 90 values. -/
def smallFile : List Byte :=
  writeHeader [20240326, 3, 2, 3, 1, 1, 2, 4] ++ (List.range 360).map Fin.ofNat

/-- The model `NewGPT2FromCheckpoint` returns for `smallFile`. -/
def smallModel : GPT2 :=
  { layoutOf smallConfig with Parameters := decodeFloat32s ((List.range 360).map Fin.ofNat) }

/-- A file system that holds one file, at the path `model.bin`. -/
def oneFile (content : List Byte) (path : String) : Except String (List Byte) :=
  if path = "model.bin" then Except.ok content
  else Except.error ("open " ++ path ++ ": no such file or directory")

/-- A model value whose layout names a region outside its buffer. -/
def strayModel : GPT2 :=
  { newModel smallConfig with
    Parameters := [1, 2, 3]
    ParamOffsets := [("wte", 2)]
    ParamSizes := [("wte", 8)] }

/-- A model value whose layout names a region inside its buffer. -/
def tidyModel : GPT2 :=
  { newModel smallConfig with
    Parameters := [10, 20, 30]
    ParamOffsets := [("wte", 1)]
    ParamSizes := [("wte", 2)] }

/-- The twelve per-layer tensor names of the specification. -/
def specTensorNames : List String :=
  [ "ln1.weight", "ln1.bias", "attn.qkv.weight", "attn.qkv.bias", "attn.proj.weight"
  , "attn.proj.bias", "ln2.weight", "ln2.bias", "mlp.fc.weight", "mlp.fc.bias"
  , "mlp.proj.weight", "mlp.proj.bias" ]

/-- Whether the string `key` ends with the string `name`. -/
def endsWith (key name : String) : Bool := name.data.isSuffixOf key.data

/-! ## Streams: header and data of a file, and the writer of the tests -/

/-- The 256 header entries of a file that holds a complete header. -/
def headerOf (file : List Byte) : List Int := decodeInt32s (file.take (4 * 256))

/-- The part of a file that follows the header. -/
def dataOf (file : List Byte) : List Byte := file.drop (4 * 256)

/-- The four bytes `binary.Write` produces for a `float32` in little-endian
order. -/
def float32Bytes (f : Float32) : List Byte :=
  [ Fin.ofNat (f % 256), Fin.ofNat (f / 256 % 256), Fin.ofNat (f / 65536 % 256)
  , Fin.ofNat (f / 16777216 % 256) ]

/-- The bytes `binary.Write` produces for a slice of `int32`. -/
def encodeInt32s (values : List Int) : List Byte := values.flatMap int32Bytes

/-- The bytes `binary.Write` produces for a slice of `float32`. -/
def encodeFloat32s (values : List Float32) : List Byte := values.flatMap float32Bytes

/-- A checkpoint file as the tests write it: the header, then the parameters. -/
def writeCheckpoint (header : List Int) (parameters : List Float32) : List Byte :=
  encodeInt32s header ++ encodeFloat32s parameters

/-- A header that passes the checks of the loader: magic number 20240326,
version 3 and strictly positive entries 2 to 7. -/
def validHeader (header : List Int) : Prop :=
  headerAt header 0 = 20240326 ∧ headerAt header 1 = 3
    ∧ 0 < headerAt header 2 ∧ 0 < headerAt header 3 ∧ 0 < headerAt header 4
    ∧ 0 < headerAt header 5 ∧ 0 < headerAt header 6 ∧ 0 < headerAt header 7

instance (header : List Int) : Decidable (validHeader header) := by
  unfold validHeader
  infer_instance

/-- The layout total of the configuration of a header, as
`calculateParameterSizes` computes it: the `total_element_count` of a stream. -/
def totalOfHeader (header : List Int) : Int :=
  (layoutOf (configOfHeader header)).NumParameters

/-! ## The pure size calculator and the exact layout -/

/-- The total element count as a pure function of the configuration, in Go
`int` arithmetic: `padded_vocab_size*C + max_seq_len*C
+ num_layers*(12*C*C + 13*C) + 2*C` with `C = channels`, without any map or
buffer. -/
def totalElementCount (cfg : GPT2Config) : Int :=
  let c := cfg.Channels
  add64
    (add64 (add64 (mul64 cfg.PaddedVocabSize c) (mul64 cfg.MaxSeqLen c))
      (mul64 cfg.NumLayers (add64 (mul64 (mul64 12 c) c) (mul64 13 c))))
    (mul64 2 c)

/-- The key suffix and the size of the twelve tensors of one layer, the sizes
in unbounded integers. -/
def exactLayerTensors (cfg : GPT2Config) : List (String × Int) :=
  [ ("_ln1.weight", cfg.Channels)
  , ("_ln1.bias", cfg.Channels)
  , (".attn.qkv.weight", 3 * cfg.Channels * cfg.Channels)
  , (".attn.qkv.bias", 3 * cfg.Channels)
  , (".attn.proj.weight", cfg.Channels * cfg.Channels)
  , (".attn.proj.bias", cfg.Channels)
  , (".ln_2.weight", cfg.Channels)
  , (".ln_2.bias", cfg.Channels)
  , (".mlp.fc.weight", 4 * cfg.Channels * cfg.Channels)
  , (".mlp.fc.bias", 4 * cfg.Channels)
  , (".mlp.proj.weight", 4 * cfg.Channels * cfg.Channels)
  , (".mlp.proj.bias", cfg.Channels) ]

/-- The regions of the layers `0, ..., n - 1`, the sizes in unbounded
integers. -/
def exactLayersEmissions (cfg : GPT2Config) : Nat → List (String × Int)
  | 0 => []
  | n + 1 => exactLayersEmissions cfg n
      ++ (exactLayerTensors cfg).map (fun p => (layerName n ++ p.1, p.2))

/-- Every region of the layout with its size in unbounded integers, in
construction order. -/
def exactEmissions (cfg : GPT2Config) : List (String × Int) :=
  [ ("wte", cfg.PaddedVocabSize * cfg.Channels)
  , ("wpe", cfg.MaxSeqLen * cfg.Channels) ]
  ++ exactLayersEmissions cfg cfg.NumLayers.toNat
  ++ [ ("ln_f.weight", cfg.Channels), ("ln_f.bias", cfg.Channels) ]

/-- The offsets of a sequence of regions in unbounded integers: each offset
is the sum of the start and of the sizes before it. -/
def exactOffsetsFrom : Int → List (String × Int) → List (String × Int)
  | _, [] => []
  | start, (name, size) :: rest => (name, start) :: exactOffsetsFrom (start + size) rest

/-- Whether a value is a strictly positive `int32`. -/
def positiveInt32 (v : Int) : Prop := 1 ≤ v ∧ v ≤ 2 ^ 31 - 1

instance (v : Int) : Decidable (positiveInt32 v) := by
  unfold positiveInt32
  infer_instance

/-- A configuration as the loader builds it from a header that passes
`Validate`: every field a strictly positive `int32`. -/
def fromHeaderRange (cfg : GPT2Config) : Prop :=
  positiveInt32 cfg.MaxSeqLen ∧ positiveInt32 cfg.VocabSize ∧ positiveInt32 cfg.NumLayers
    ∧ positiveInt32 cfg.NumHeads ∧ positiveInt32 cfg.Channels
    ∧ positiveInt32 cfg.PaddedVocabSize

instance (cfg : GPT2Config) : Decidable (fromHeaderRange cfg) := by
  unfold fromHeaderRange
  infer_instance

/-- A header, every field of the configuration a strictly positive `int32`,
whose layout total is negative in 64-bit arithmetic. -/
def negTotalHeader : List Int := [20240326, 3, 1, 1, 1, 1, 1073741824, 1]

/-- A checkpoint file of 1024 bytes: `negTotalHeader` and no parameter data. -/
def negTotalFile : List Byte := writeHeader negTotalHeader

/-- A header, every field of the configuration a strictly positive `int32`,
whose layout total 3377700005740544 is below `2^63` and whose buffer of
`4 * 3377700005740544` bytes exceeds `linuxMaxAlloc`. -/
def hugeHeader : List Int :=
  [20240326, 3, 1, 1, 1, 1, 16777216, 1] ++ List.replicate 248 0

/-- A checkpoint file as the tests write it: `hugeHeader` followed by `n`
parameter values, all zero. -/
def hugeCheckpoint (n : Nat) : List Byte :=
  writeCheckpoint hugeHeader (List.replicate n 0)

/-- A checkpoint file of 1024 bytes: `hugeHeader` and no parameter data. -/
def hugeFile : List Byte := writeHeader [20240326, 3, 1, 1, 1, 1, 16777216, 1]

/-- The 256 header entries of `smallFile`. -/
def smallHeader : List Int :=
  [20240326, 3, 2, 3, 1, 1, 2, 4] ++ List.replicate 248 0

/-- The 90 parameter values of a checkpoint for `smallConfig`. -/
def smallParameters : List Float32 := (List.range 90).map (fun i => 1000 * i + 7)
/-- A header-only file with a wrong magic number. -/
def badMagicFile : List Byte := writeHeader [20240325, 3, 2, 3, 1, 1, 2, 4]
/-- A header-only file with the magic number and a wrong version. -/
def badVersionFile : List Byte := writeHeader [20240326, 4, 2, 3, 1, 1, 2, 4]
/-- The file `smallFile` cut one byte before its end. -/
def truncatedFile : List Byte := smallFile.take (4 * 256 + 4 * 89 + 3)

/-- A header-only file with magic number and version and `num_layers = 0`. -/
def badConfigFile : List Byte := writeHeader [20240326, 3, 2, 3, 0, 1, 2, 4]
/-- The file `smallFile` with 200 of the reserved header entries set to 77. -/
def paddedFile : List Byte :=
  writeHeader ([20240326, 3, 2, 3, 1, 1, 2, 4] ++ List.replicate 200 77)
    ++ (List.range 360).map Fin.ofNat
/-- The file `smallFile` followed by five surplus bytes. -/
def longFile : List Byte := smallFile ++ [1, 2, 3, 4, 5]

/-- A valid configuration, every field an `int32`, whose `4*C*C` exceeds the
`int64` range. -/
def wideConfig : GPT2Config :=
  { MaxSeqLen := 1, VocabSize := 1, NumLayers := 1, NumHeads := 1, Channels := 2147483647
    PaddedVocabSize := 1 }

/-- Value of a string of decimal digits. -/
def decVal (l : List Char) : Nat := l.foldl (fun a c => 10 * a + (c.toNat - 48)) 0

/-! ## Machine arithmetic -/

theorem wrap64_of_range (x : Int) (hlo : -2 ^ 63 ≤ x) (hhi : x < 2 ^ 63) : wrap64 x = x := by
  unfold wrap64
  omega

theorem wrap64_modEq (x : Int) : wrap64 x ≡ x [ZMOD 2 ^ 64] := by
  unfold wrap64 Int.ModEq
  omega

theorem wrap64_congr {a b : Int} (h : a ≡ b [ZMOD 2 ^ 64]) : wrap64 a = wrap64 b := by
  unfold wrap64
  have h2 : (a + 2 ^ 63) % 2 ^ 64 = (b + 2 ^ 63) % 2 ^ 64 := Int.ModEq.add_right _ h
  rw [h2]

theorem wrap64_range (x : Int) : -2 ^ 63 ≤ wrap64 x ∧ wrap64 x < 2 ^ 63 := by
  unfold wrap64
  omega

theorem add64_wrap_left (a b : Int) : add64 (wrap64 a) b = wrap64 (a + b) := by
  unfold add64
  exact wrap64_congr ((wrap64_modEq a).add_right b)

theorem mul64_wrap_left (a b : Int) : mul64 (wrap64 a) b = wrap64 (a * b) := by
  unfold mul64
  exact wrap64_congr ((wrap64_modEq a).mul_right b)

/-! ## Maps -/

theorem mapSet_of_not_mem (m : GoMap) (k : String) (v : Int) (h : k ∉ mapKeys m) :
    mapSet m k v = m ++ [(k, v)] := by
  induction m with
  | nil => rfl
  | cons e rest ih =>
    obtain ⟨k', v'⟩ := e
    simp only [mapKeys, List.map_cons, List.mem_cons, not_or] at h
    have hne : ¬ k' = k := fun hh => h.1 hh.symm
    simp only [mapSet, hne, if_false, List.cons_append]
    rw [ih h.2]

theorem mapKeys_append (a b : GoMap) : mapKeys (a ++ b) = mapKeys a ++ mapKeys b := by
  simp [mapKeys]

theorem mapGet_eq_none_iff (m : GoMap) (k : String) : mapGet m k = none ↔ k ∉ mapKeys m := by
  induction m with
  | nil => simp [mapGet, mapKeys]
  | cons e rest ih =>
    obtain ⟨k', v'⟩ := e
    by_cases hk : k' = k
    · simp [mapGet, mapKeys, hk]
    · have hk2 : ¬ k = k' := fun hh => hk hh.symm
      simp only [mapGet, hk, if_false, ih, mapKeys, List.map_cons, List.mem_cons, hk2, false_or]

theorem mapGet_cons_self (k : String) (v : Int) (rest : GoMap) :
    mapGet ((k, v) :: rest) k = some v := by
  simp [mapGet]

theorem mapGet_cons_ne (k k' : String) (v : Int) (rest : GoMap) (h : k' ≠ k) :
    mapGet ((k', v) :: rest) k = mapGet rest k := by
  simp [mapGet, h]

theorem mapKeys_offsetsFrom (es : List (String × Int)) :
    ∀ start, mapKeys (offsetsFrom start es) = mapKeys es := by
  induction es with
  | nil => intro start; rfl
  | cons e rest ih =>
    intro start
    obtain ⟨n, s⟩ := e
    simp only [offsetsFrom, mapKeys, List.map_cons]
    exact congrArg _ (ih _)

/-- A run of `emit` steps on fresh, pairwise distinct names appends the
entries in order. -/
theorem emitAll_fresh (es : List (String × Int)) :
    ∀ st : LayoutState, (mapKeys es).Nodup →
      (∀ n ∈ mapKeys es, n ∉ mapKeys st.ParamOffsets ∧ n ∉ mapKeys st.ParamSizes) →
      emitAll st es =
        { ParamOffsets := st.ParamOffsets ++ offsetsFrom st.offset es
          ParamSizes := st.ParamSizes ++ es
          offset := offsetAfter st.offset es } := by
  induction es with
  | nil => intro st _ _; simp [emitAll, offsetsFrom, offsetAfter]
  | cons e rest ih =>
    intro st hnd hfresh
    obtain ⟨n, s⟩ := e
    simp only [mapKeys, List.map_cons, List.nodup_cons] at hnd
    have hn := hfresh n (by simp [mapKeys])
    have hstep : emitAll st ((n, s) :: rest) = emitAll (emit st n s) rest := by
      simp [emitAll]
    rw [hstep, ih (emit st n s) hnd.2]
    · simp only [emit, mapSet_of_not_mem _ _ _ hn.1, mapSet_of_not_mem _ _ _ hn.2,
        offsetsFrom, offsetAfter, List.append_assoc, List.singleton_append]
    · intro x hx
      have hx2 := hfresh x (by simp only [mapKeys, List.map_cons, List.mem_cons]; exact Or.inr hx)
      have hxn : x ≠ n := fun hh => hnd.1 (hh ▸ hx)
      simp only [emit, mapSet_of_not_mem _ _ _ hn.1, mapSet_of_not_mem _ _ _ hn.2,
        mapKeys_append, List.mem_append, not_or]
      exact ⟨⟨hx2.1, by simp [mapKeys, hxn]⟩, ⟨hx2.2, by simp [mapKeys, hxn]⟩⟩

theorem emitAll_append (st : LayoutState) (a b : List (String × Int)) :
    emitAll st (a ++ b) = emitAll (emitAll st a) b := by
  simp [emitAll, List.foldl_append]

theorem layerBody_eq (cfg : GPT2Config) (st : LayoutState) (layer : Nat) :
    layerBody cfg st layer = emitAll st (layerEmissions cfg layer) := rfl

theorem layers_fold_eq (cfg : GPT2Config) (n : Nat) (st : LayoutState) :
    (List.range n).foldl (layerBody cfg) st = emitAll st (layersEmissions cfg n) := by
  induction n with
  | zero => rfl
  | succ n ih =>
    rw [List.range_succ, List.foldl_append, ih]
    simp only [List.foldl_cons, List.foldl_nil, layersEmissions, emitAll_append, layerBody_eq]

theorem layoutRun_eq (cfg : GPT2Config) (offsets sizes : GoMap) :
    layoutRun cfg offsets sizes
      = emitAll { ParamOffsets := offsets, ParamSizes := sizes, offset := 0 } (emissions cfg) := by
  unfold layoutRun emissions
  dsimp only
  rw [emitAll_append, emitAll_append, layers_fold_eq]
  rfl

/-! ## Decimal formatting and the keys of the layers -/

theorem digitChar_isDigit (k : Nat) (h : k < 10) : (Nat.digitChar k).isDigit = true := by
  interval_cases k <;> decide

theorem digitChar_val (k : Nat) (h : k < 10) : (Nat.digitChar k).toNat - 48 = k := by
  interval_cases k <;> decide

theorem toDigitsCore_spec : ∀ (fuel n : Nat) (ds : List Char), n < fuel →
    ∃ l, Nat.toDigitsCore 10 fuel n ds = l ++ ds ∧ (∀ c ∈ l, c.isDigit = true) ∧ decVal l = n := by
  intro fuel
  induction fuel with
  | zero => intro n ds h; omega
  | succ fuel ih =>
    intro n ds h
    by_cases h0 : n / 10 = 0
    · refine ⟨[Nat.digitChar (n % 10)], ?_, ?_, ?_⟩
      · simp [Nat.toDigitsCore, h0]
      · intro c hc
        simp only [List.mem_singleton] at hc
        subst hc
        exact digitChar_isDigit _ (Nat.mod_lt _ (by norm_num))
      · simp only [decVal, List.foldl_cons, List.foldl_nil]
        rw [digitChar_val _ (Nat.mod_lt _ (by norm_num))]
        omega
    · obtain ⟨l, hl, hd, hv⟩ := ih (n / 10) (Nat.digitChar (n % 10) :: ds) (by omega)
      refine ⟨l ++ [Nat.digitChar (n % 10)], ?_, ?_, ?_⟩
      · simp [Nat.toDigitsCore, h0, hl]
      · intro c hc
        rcases List.mem_append.mp hc with hc | hc
        · exact hd c hc
        · simp only [List.mem_singleton] at hc
          subst hc
          exact digitChar_isDigit _ (Nat.mod_lt _ (by norm_num))
      · unfold decVal at hv ⊢
        rw [List.foldl_append, hv]
        simp only [List.foldl_cons, List.foldl_nil]
        rw [digitChar_val _ (Nat.mod_lt _ (by norm_num))]
        omega

theorem toDigits_spec (n : Nat) :
    (∀ c ∈ Nat.toDigits 10 n, c.isDigit = true) ∧ decVal (Nat.toDigits 10 n) = n := by
  obtain ⟨l, hl, hd, hv⟩ := toDigitsCore_spec (n + 1) n [] (by omega)
  simp only [List.append_nil] at hl
  unfold Nat.toDigits
  rw [hl]
  exact ⟨hd, hv⟩

theorem layerName_append_data (i : Nat) (s : String) :
    (layerName i ++ s).data = "Layer ".data ++ (Nat.toDigits 10 i ++ s.data) := by
  have h : (toString i).data = Nat.toDigits 10 i := rfl
  simp only [layerName, String.data_append, h, List.append_assoc]

theorem suffix_no_digit (s : String) (hs : s ∈ layerSuffixes) :
    s.data.takeWhile Char.isDigit = [] := by
  simp only [layerSuffixes, List.mem_cons, List.mem_singleton, List.not_mem_nil, or_false] at hs
  rcases hs with h | h | h | h | h | h | h | h | h | h | h | h <;> subst h <;> decide

/-- The key of a layer tensor determines the layer index and the suffix. -/
theorem layerKey_inj (i j : Nat) (s t : String) (hs : s ∈ layerSuffixes)
    (ht : t ∈ layerSuffixes) (h : layerName i ++ s = layerName j ++ t) : i = j ∧ s = t := by
  have hd := congrArg String.data h
  rw [layerName_append_data, layerName_append_data] at hd
  have hd2 := List.append_cancel_left hd
  have htw := congrArg (List.takeWhile Char.isDigit) hd2
  rw [List.takeWhile_append_of_pos (toDigits_spec i).1,
    List.takeWhile_append_of_pos (toDigits_spec j).1,
    suffix_no_digit s hs, suffix_no_digit t ht, List.append_nil, List.append_nil] at htw
  have hij : i = j := by
    have := congrArg decVal htw
    rwa [(toDigits_spec i).2, (toDigits_spec j).2] at this
  subst hij
  exact ⟨rfl, String.ext (List.append_cancel_left hd2)⟩

theorem layerKey_head (i : Nat) (s : String) : ∃ r, (layerName i ++ s).data = 'L' :: r := by
  rw [layerName_append_data]
  exact ⟨_, rfl⟩

theorem mapKeys_layerTensors (cfg : GPT2Config) : mapKeys (layerTensors cfg) = layerSuffixes := rfl

theorem mapKeys_layerEmissions (cfg : GPT2Config) (i : Nat) :
    mapKeys (layerEmissions cfg i) = layerSuffixes.map (fun s => layerName i ++ s) := rfl

theorem mem_mapKeys_layersEmissions (cfg : GPT2Config) (n : Nat) (x : String) :
    x ∈ mapKeys (layersEmissions cfg n) ↔
      ∃ i, i < n ∧ ∃ s, s ∈ layerSuffixes ∧ x = layerName i ++ s := by
  induction n with
  | zero => simp [layersEmissions, mapKeys]
  | succ n ih =>
    rw [layersEmissions, mapKeys_append, List.mem_append, ih, mapKeys_layerEmissions]
    constructor
    · rintro (⟨i, hi, s, hs, hx⟩ | hx)
      · exact ⟨i, by omega, s, hs, hx⟩
      · obtain ⟨s, hs, hx⟩ := List.mem_map.mp hx
        exact ⟨n, by omega, s, hs, hx.symm⟩
    · rintro ⟨i, hi, s, hs, hx⟩
      by_cases hin : i < n
      · exact Or.inl ⟨i, hin, s, hs, hx⟩
      · have : i = n := by omega
        subst this
        exact Or.inr (List.mem_map.mpr ⟨s, hs, hx.symm⟩)

theorem layerSuffixes_nodup : layerSuffixes.Nodup := by decide

theorem nodup_layerEmissions (cfg : GPT2Config) (i : Nat) :
    (mapKeys (layerEmissions cfg i)).Nodup := by
  rw [mapKeys_layerEmissions]
  refine List.Nodup.map_on ?_ layerSuffixes_nodup
  intro s hs t ht h
  exact (layerKey_inj i i s t hs ht h).2

theorem nodup_layersEmissions (cfg : GPT2Config) (n : Nat) :
    (mapKeys (layersEmissions cfg n)).Nodup := by
  induction n with
  | zero => simp [layersEmissions, mapKeys]
  | succ n ih =>
    rw [layersEmissions, mapKeys_append]
    refine List.Nodup.append ih (nodup_layerEmissions cfg n) ?_
    intro x hx hx2
    obtain ⟨i, hi, s, hs, hxe⟩ := (mem_mapKeys_layersEmissions cfg n x).mp hx
    rw [mapKeys_layerEmissions] at hx2
    obtain ⟨t, ht, hxt⟩ := List.mem_map.mp hx2
    have := (layerKey_inj i n s t hs ht (hxe.symm.trans hxt.symm)).1
    omega

theorem layerKey_ne_of_head (i : Nat) (s x : String) (c : Char) (r : List Char)
    (hx : x.data = c :: r) (hc : c ≠ 'L') : layerName i ++ s ≠ x := by
  intro h
  obtain ⟨r2, hr⟩ := layerKey_head i s
  rw [h, hx] at hr
  exact hc (List.cons.inj hr).1

/-- The names written by `calculateParameterSizes` are pairwise distinct. -/
theorem nodup_constructionOrder (cfg : GPT2Config) : (constructionOrder cfg).Nodup := by
  have hL : ∀ x ∈ mapKeys (layersEmissions cfg cfg.NumLayers.toNat),
      x ≠ "wte" ∧ x ≠ "wpe" ∧ x ≠ "ln_f.weight" ∧ x ≠ "ln_f.bias" := by
    intro x hx
    obtain ⟨i, _, s, _, hxe⟩ := (mem_mapKeys_layersEmissions cfg _ x).mp hx
    subst hxe
    exact ⟨layerKey_ne_of_head i s _ 'w' _ rfl (by decide),
      layerKey_ne_of_head i s _ 'w' _ rfl (by decide),
      layerKey_ne_of_head i s _ 'l' _ rfl (by decide),
      layerKey_ne_of_head i s _ 'l' _ rfl (by decide)⟩
  have hnd := nodup_layersEmissions cfg cfg.NumLayers.toNat
  unfold constructionOrder emissions
  change (mapKeys _).Nodup
  rw [mapKeys_append, mapKeys_append]
  have hhead : (mapKeys [("wte", mul64 cfg.PaddedVocabSize cfg.Channels),
      ("wpe", mul64 cfg.MaxSeqLen cfg.Channels)]).Nodup := by
    change (["wte", "wpe"] : List String).Nodup
    decide
  have htail : (mapKeys [("ln_f.weight", cfg.Channels), ("ln_f.bias", cfg.Channels)]).Nodup := by
    change (["ln_f.weight", "ln_f.bias"] : List String).Nodup
    decide
  refine List.Nodup.append (List.Nodup.append hhead hnd ?_) htail ?_
  · intro x hx hx2
    have h := hL x hx2
    simp only [mapKeys, List.map_cons, List.map_nil, List.mem_cons, List.mem_singleton,
      List.not_mem_nil, or_false] at hx
    rcases hx with hx | hx
    · exact h.1 hx
    · exact h.2.1 hx
  · intro x hx hx2
    simp only [mapKeys, List.map_cons, List.map_nil, List.mem_cons, List.mem_singleton,
      List.not_mem_nil, or_false] at hx2
    rcases List.mem_append.mp hx with hx | hx
    · simp only [mapKeys, List.map_cons, List.map_nil, List.mem_cons, List.mem_singleton,
        List.not_mem_nil, or_false] at hx
      rcases hx with hx | hx <;> rcases hx2 with hx2 | hx2 <;> subst hx <;> revert hx2 <;> decide
    · have h := hL x hx
      rcases hx2 with hx2 | hx2
      · exact h.2.2.1 hx2
      · exact h.2.2.2 hx2

/-! ## The layout as a list of regions -/

/-- The result of `calculateParameterSizes` on a fresh model, field by field. -/
theorem layoutOf_fields (cfg : GPT2Config) :
    (layoutOf cfg).ParamOffsets = offsetsFrom 0 (emissions cfg)
      ∧ (layoutOf cfg).ParamSizes = emissions cfg
      ∧ (layoutOf cfg).NumParameters = offsetAfter 0 (emissions cfg)
      ∧ (layoutOf cfg).Config = cfg
      ∧ (layoutOf cfg).Parameters = [] := by
  have h := emitAll_fresh (emissions cfg) { ParamOffsets := [], ParamSizes := [], offset := 0 }
    (nodup_constructionOrder cfg) (by intro n _; simp [mapKeys])
  simp only [List.nil_append] at h
  refine ⟨?_, ?_, ?_, ?_, ?_⟩ <;>
    simp only [layoutOf, calculateParameterSizes, newModel, layoutRun_eq, h]

/-- The running offset is the wrapped sum of the start and the sizes. -/
theorem offsetAfter_wrap (es : List (String × Int)) :
    ∀ a : Int, offsetAfter (wrap64 a) es = wrap64 (a + (es.map Prod.snd).sum) := by
  induction es with
  | nil => intro a; simp [offsetAfter]
  | cons e rest ih =>
    intro a
    obtain ⟨n, s⟩ := e
    simp only [offsetAfter, add64_wrap_left, ih, List.map_cons, List.sum_cons]
    rw [add_assoc]

theorem offsetAfter_zero (es : List (String × Int)) :
    offsetAfter 0 es = wrap64 ((es.map Prod.snd).sum) := by
  have h := offsetAfter_wrap es 0
  rw [zero_add] at h
  rw [← h]
  rfl

theorem totalParamsOver_eq (entries : List (String × Int)) :
    totalParamsOver entries = wrap64 ((entries.map Prod.snd).sum) := by
  have key : ∀ (es : List (String × Int)) (a : Int),
      es.foldl (fun acc kv => add64 acc kv.2) (wrap64 a) = wrap64 (a + (es.map Prod.snd).sum) := by
    intro es
    induction es with
    | nil => intro a; simp
    | cons e rest ih =>
      intro a
      simp only [List.foldl_cons, add64_wrap_left, ih, List.map_cons, List.sum_cons]
      rw [add_assoc]
  have h := key entries 0
  rw [zero_add] at h
  unfold totalParamsOver
  rw [← h]
  rfl

theorem mul64_modEq (a b : Int) : mul64 a b ≡ a * b [ZMOD 2 ^ 64] := wrap64_modEq _

theorem sum_layerTensors (cfg : GPT2Config) :
    ((layerTensors cfg).map Prod.snd).sum
      ≡ 12 * cfg.Channels * cfg.Channels + 13 * cfg.Channels [ZMOD 2 ^ 64] := by
  have h3 : mul64 3 cfg.Channels ≡ 3 * cfg.Channels [ZMOD 2 ^ 64] := mul64_modEq _ _
  have h4 : mul64 4 cfg.Channels ≡ 4 * cfg.Channels [ZMOD 2 ^ 64] := mul64_modEq _ _
  have h4r : mul64 cfg.Channels 4 ≡ cfg.Channels * 4 [ZMOD 2 ^ 64] := mul64_modEq _ _
  have hcc : mul64 cfg.Channels cfg.Channels ≡ cfg.Channels * cfg.Channels [ZMOD 2 ^ 64] :=
    mul64_modEq _ _
  have h3c : mul64 (mul64 3 cfg.Channels) cfg.Channels ≡ 3 * cfg.Channels * cfg.Channels
      [ZMOD 2 ^ 64] := (mul64_modEq _ _).trans (h3.mul_right _)
  have h4c : mul64 (mul64 4 cfg.Channels) cfg.Channels ≡ 4 * cfg.Channels * cfg.Channels
      [ZMOD 2 ^ 64] := (mul64_modEq _ _).trans (h4.mul_right _)
  have h4rc : mul64 (mul64 cfg.Channels 4) cfg.Channels ≡ cfg.Channels * 4 * cfg.Channels
      [ZMOD 2 ^ 64] := (mul64_modEq _ _).trans (h4r.mul_right _)
  have hC : cfg.Channels ≡ cfg.Channels [ZMOD 2 ^ 64] := Int.ModEq.refl _
  have hsum := Int.ModEq.add (Int.ModEq.add (Int.ModEq.add (Int.ModEq.add (Int.ModEq.add
    (Int.ModEq.add (Int.ModEq.add (Int.ModEq.add (Int.ModEq.add (Int.ModEq.add (Int.ModEq.add
    hC hC) h3c) h3) hcc) hC) hC) hC) h4c) h4) h4rc) hC
  calc ((layerTensors cfg).map Prod.snd).sum
      = cfg.Channels + cfg.Channels + mul64 (mul64 3 cfg.Channels) cfg.Channels
          + mul64 3 cfg.Channels + mul64 cfg.Channels cfg.Channels + cfg.Channels
          + cfg.Channels + cfg.Channels + mul64 (mul64 4 cfg.Channels) cfg.Channels
          + mul64 4 cfg.Channels + mul64 (mul64 cfg.Channels 4) cfg.Channels
          + cfg.Channels := by
        simp only [layerTensors, List.map_cons, List.map_nil, List.sum_cons, List.sum_nil]
        ring
    _ ≡ cfg.Channels + cfg.Channels + 3 * cfg.Channels * cfg.Channels + 3 * cfg.Channels
          + cfg.Channels * cfg.Channels + cfg.Channels + cfg.Channels + cfg.Channels
          + 4 * cfg.Channels * cfg.Channels + 4 * cfg.Channels
          + cfg.Channels * 4 * cfg.Channels + cfg.Channels [ZMOD 2 ^ 64] := hsum
    _ = 12 * cfg.Channels * cfg.Channels + 13 * cfg.Channels := by ring

theorem sum_layerEmissions (cfg : GPT2Config) (i : Nat) :
    ((layerEmissions cfg i).map Prod.snd).sum = ((layerTensors cfg).map Prod.snd).sum := by
  unfold layerEmissions
  rw [List.map_map]
  rfl

theorem sum_layersEmissions (cfg : GPT2Config) (n : Nat) :
    ((layersEmissions cfg n).map Prod.snd).sum
      ≡ (n : Int) * (12 * cfg.Channels * cfg.Channels + 13 * cfg.Channels) [ZMOD 2 ^ 64] := by
  induction n with
  | zero => simp [layersEmissions]
  | succ n ih =>
    rw [layersEmissions, List.map_append, List.sum_append, sum_layerEmissions]
    have h := ih.add (sum_layerTensors cfg)
    refine h.trans ?_
    have : (n : Int) * (12 * cfg.Channels * cfg.Channels + 13 * cfg.Channels)
        + (12 * cfg.Channels * cfg.Channels + 13 * cfg.Channels)
        = ((n + 1 : Nat) : Int) * (12 * cfg.Channels * cfg.Channels + 13 * cfg.Channels) := by
      push_cast; ring
    rw [this]

theorem sum_emissions (cfg : GPT2Config) :
    ((emissions cfg).map Prod.snd).sum ≡ exactTotal cfg [ZMOD 2 ^ 64] := by
  unfold emissions exactTotal
  simp only [List.map_append, List.sum_append, List.map_cons, List.map_nil, List.sum_cons,
    List.sum_nil, add_zero]
  have h1 := mul64_modEq cfg.PaddedVocabSize cfg.Channels
  have h2 := mul64_modEq cfg.MaxSeqLen cfg.Channels
  have h3 := sum_layersEmissions cfg cfg.NumLayers.toNat
  have hC : cfg.Channels ≡ cfg.Channels [ZMOD 2 ^ 64] := Int.ModEq.refl _
  have h := ((h1.add h2).add h3).add (hC.add hC)
  have e : 2 * cfg.Channels = cfg.Channels + cfg.Channels := by ring
  rw [e]
  exact h

/-- The total is the wrapped closed form. -/
theorem numParameters_closed (cfg : GPT2Config) :
    (layoutOf cfg).NumParameters = wrap64 (exactTotal cfg) := by
  rw [(layoutOf_fields cfg).2.2.1, offsetAfter_zero]
  exact wrap64_congr (sum_emissions cfg)

/-! ## Regions in construction order -/

theorem mapIndex_cons_self (k : String) (v : Int) (rest : GoMap) :
    mapIndex ((k, v) :: rest) k = v := by
  simp [mapIndex, mapGet]

theorem mapIndex_cons_ne (k k' : String) (v : Int) (rest : GoMap) (h : k' ≠ k) :
    mapIndex ((k', v) :: rest) k = mapIndex rest k := by
  simp [mapIndex, mapGet, h]

theorem regions_of_offsets (es : List (String × Int)) :
    ∀ start, (mapKeys es).Nodup →
      (offsetsFrom start es).map (fun p => ((p.1, p.2, mapIndex es p.1) : Region))
        = regionsFrom start es := by
  induction es with
  | nil => intro start _; rfl
  | cons e rest ih =>
    intro start hnd
    obtain ⟨n, s⟩ := e
    simp only [mapKeys, List.map_cons, List.nodup_cons] at hnd
    simp only [offsetsFrom, regionsFrom, List.map_cons, mapIndex_cons_self]
    congr 1
    rw [← ih (add64 start s) hnd.2]
    apply List.map_congr_left
    intro p hp
    have hp1 : p.1 ∈ mapKeys rest := by
      rw [← mapKeys_offsetsFrom rest (add64 start s)]
      exact List.mem_map_of_mem Prod.fst hp
    have hne : n ≠ p.1 := fun hh => hnd.1 (hh ▸ hp1)
    rw [mapIndex_cons_ne _ _ _ _ hne]

theorem regionsOf_layoutOf (cfg : GPT2Config) :
    regionsOf (layoutOf cfg) = regionsFrom 0 (emissions cfg) := by
  unfold regionsOf
  rw [(layoutOf_fields cfg).1, (layoutOf_fields cfg).2.1]
  exact regions_of_offsets _ _ (nodup_constructionOrder cfg)

theorem regionsFrom_names (es : List (String × Int)) :
    ∀ start, (regionsFrom start es).map (fun r => r.1) = es.map Prod.fst := by
  induction es with
  | nil => intro start; rfl
  | cons e rest ih =>
    intro start
    obtain ⟨n, s⟩ := e
    simp only [regionsFrom, List.map_cons, ih]

theorem regionsFrom_sizes (es : List (String × Int)) :
    ∀ start, (regionsFrom start es).map (fun r => (r.1, r.2.2)) = es := by
  induction es with
  | nil => intro start; rfl
  | cons e rest ih =>
    intro start
    obtain ⟨n, s⟩ := e
    simp only [regionsFrom, List.map_cons, ih]

theorem regionsFrom_head (es : List (String × Int)) (start : Int) (hne : es ≠ []) :
    (regionsFrom start es).head?.map (fun r => r.2.1) = some start := by
  cases es with
  | nil => exact absurd rfl hne
  | cons e rest => obtain ⟨n, s⟩ := e; rfl

theorem regionsFrom_chain (es : List (String × Int)) :
    ∀ start, List.Chain' (fun a b : Region => b.2.1 = add64 a.2.1 a.2.2)
      (regionsFrom start es) := by
  induction es with
  | nil => intro start; exact List.chain'_nil
  | cons e rest ih =>
    intro start
    obtain ⟨n, s⟩ := e
    cases rest with
    | nil => exact List.chain'_singleton _
    | cons e2 rest2 =>
      obtain ⟨n2, s2⟩ := e2
      have h := ih (add64 start s)
      simp only [regionsFrom] at h ⊢
      exact List.Chain'.cons rfl h

theorem regionsFrom_last (es : List (String × Int)) :
    ∀ start, es ≠ [] →
      (regionsFrom start es).getLast?.map (fun r => add64 r.2.1 r.2.2)
        = some (offsetAfter start es) := by
  induction es with
  | nil => intro start hne; exact absurd rfl hne
  | cons e rest ih =>
    intro start _
    obtain ⟨n, s⟩ := e
    cases rest with
    | nil => rfl
    | cons e2 rest2 =>
      have h := ih (add64 start s) (by simp)
      obtain ⟨n2, s2⟩ := e2
      simp only [regionsFrom, offsetAfter] at h ⊢
      rw [List.getLast?_cons_cons]
      exact h

theorem emissions_ne_nil (cfg : GPT2Config) : emissions cfg ≠ [] := by
  simp [emissions]



theorem length_layerEmissions (cfg : GPT2Config) (i : Nat) :
    (layerEmissions cfg i).length = 12 := rfl

theorem length_layersEmissions (cfg : GPT2Config) (n : Nat) :
    (layersEmissions cfg n).length = 12 * n := by
  induction n with
  | zero => rfl
  | succ n ih =>
    rw [layersEmissions, List.length_append, ih, length_layerEmissions]
    ring

theorem layersEmissions_slice (cfg : GPT2Config) (n i : Nat) (h : i < n) :
    ((layersEmissions cfg n).drop (12 * i)).take 12 = layerEmissions cfg i := by
  induction n with
  | zero => omega
  | succ n ih =>
    rw [layersEmissions]
    by_cases hin : i < n
    · have hlen : 12 * i + 12 ≤ (layersEmissions cfg n).length := by
        rw [length_layersEmissions]; omega
      rw [List.drop_append_of_le_length (by omega), List.take_append_of_le_length
        (by rw [List.length_drop]; omega)]
      exact ih hin
    · have hi : i = n := by omega
      subst hi
      have hlen : (layersEmissions cfg i).length = 12 * i := length_layersEmissions cfg i
      rw [← hlen, List.drop_left, ← length_layerEmissions cfg i, List.take_length]

theorem emissions_slice (cfg : GPT2Config) (i : Nat) (h : i < cfg.NumLayers.toNat) :
    ((emissions cfg).drop (2 + 12 * i)).take 12 = layerEmissions cfg i := by
  have hlen := length_layersEmissions cfg cfg.NumLayers.toNat
  unfold emissions
  rw [List.append_assoc, ← List.drop_drop]
  have h2 : ∀ (a b : String × Int) (l : List (String × Int)), List.drop 2 ([a, b] ++ l) = l := by
    intros; rfl
  rw [h2, List.drop_append_of_le_length (by omega),
    List.take_append_of_le_length (by rw [List.length_drop]; omega)]
  exact layersEmissions_slice cfg _ i h

/-! ## Layouts whose total fits in `int64` -/

theorem add64_of_fit (a b : Int) (ha : 0 ≤ a) (hb : 0 ≤ b) (h : a + b < 2 ^ 63) :
    add64 a b = a + b := by
  unfold add64
  exact wrap64_of_range _ (by omega) h

theorem mul64_of_fit (a b : Int) (h0 : 0 ≤ a * b) (h : a * b < 2 ^ 63) :
    mul64 a b = a * b := by
  unfold mul64
  exact wrap64_of_range _ (by omega) h

theorem sum_nonneg_of (es : List (String × Int)) (h : ∀ e ∈ es, 0 ≤ e.2) :
    0 ≤ (es.map Prod.snd).sum := by
  induction es with
  | nil => simp
  | cons e rest ih =>
    simp only [List.map_cons, List.sum_cons]
    have h1 := h e (List.mem_cons_self _ _)
    have h2 := ih (fun x hx => h x (List.mem_cons_of_mem _ hx))
    omega

theorem offsetAfter_of_fit (es : List (String × Int)) :
    ∀ start, 0 ≤ start → (∀ e ∈ es, 0 ≤ e.2) → start + (es.map Prod.snd).sum < 2 ^ 63 →
      offsetAfter start es = start + (es.map Prod.snd).sum := by
  induction es with
  | nil => intro start _ _ _; simp [offsetAfter]
  | cons e rest ih =>
    intro start h0 hnn hfit
    obtain ⟨n, s⟩ := e
    have hs : 0 ≤ s := hnn (n, s) (List.mem_cons_self _ _)
    have hrest : ∀ x ∈ rest, 0 ≤ x.2 := fun x hx => hnn x (List.mem_cons_of_mem _ hx)
    have hsum := sum_nonneg_of rest hrest
    simp only [List.map_cons, List.sum_cons] at hfit
    have hadd : add64 start s = start + s := add64_of_fit _ _ h0 hs (by omega)
    simp only [offsetAfter, hadd, List.map_cons, List.sum_cons]
    rw [ih (start + s) (by omega) hrest (by omega)]
    ring

/-- In a run that does not overflow, every region lies between the start and
the end of the run. -/
theorem region_bounds_of_fit (es : List (String × Int)) :
    ∀ start, 0 ≤ start → (∀ e ∈ es, 0 ≤ e.2) → start + (es.map Prod.snd).sum < 2 ^ 63 →
      (mapKeys es).Nodup → ∀ n ∈ mapKeys es,
        start ≤ mapIndex (offsetsFrom start es) n
          ∧ mapIndex (offsetsFrom start es) n + mapIndex es n
              ≤ start + (es.map Prod.snd).sum := by
  induction es with
  | nil => intro start _ _ _ _ n hn; simp [mapKeys] at hn
  | cons e rest ih =>
    intro start h0 hnn hfit hnd n hn
    obtain ⟨k, s⟩ := e
    have hs : 0 ≤ s := hnn (k, s) (List.mem_cons_self _ _)
    have hrest : ∀ x ∈ rest, 0 ≤ x.2 := fun x hx => hnn x (List.mem_cons_of_mem _ hx)
    have hsum := sum_nonneg_of rest hrest
    simp only [List.map_cons, List.sum_cons] at hfit ⊢
    simp only [mapKeys, List.map_cons, List.nodup_cons] at hnd
    have hadd : add64 start s = start + s := add64_of_fit _ _ h0 hs (by omega)
    simp only [offsetsFrom]
    by_cases hk : k = n
    · subst hk
      rw [mapIndex_cons_self, mapIndex_cons_self]
      omega
    · have hn2 : n ∈ mapKeys rest := by
        simp only [mapKeys, List.map_cons, List.mem_cons] at hn
        rcases hn with hn | hn
        · exact absurd hn.symm hk
        · exact hn
      rw [mapIndex_cons_ne _ _ _ _ hk, mapIndex_cons_ne _ _ _ _ hk, hadd]
      have := ih (start + s) (by omega) hrest (by omega) hnd.2 n hn2
      omega

/-- In a run that does not overflow, two regions with distinct names do not
overlap. -/
theorem regions_apart_of_fit (es : List (String × Int)) :
    ∀ start, 0 ≤ start → (∀ e ∈ es, 0 ≤ e.2) → start + (es.map Prod.snd).sum < 2 ^ 63 →
      (mapKeys es).Nodup → ∀ n1 ∈ mapKeys es, ∀ n2 ∈ mapKeys es, n1 ≠ n2 →
        mapIndex (offsetsFrom start es) n1 + mapIndex es n1 ≤ mapIndex (offsetsFrom start es) n2
          ∨ mapIndex (offsetsFrom start es) n2 + mapIndex es n2
              ≤ mapIndex (offsetsFrom start es) n1 := by
  induction es with
  | nil => intro start _ _ _ _ n hn; simp [mapKeys] at hn
  | cons e rest ih =>
    intro start h0 hnn hfit hnd n1 hn1 n2 hn2 hne
    obtain ⟨k, s⟩ := e
    have hs : 0 ≤ s := hnn (k, s) (List.mem_cons_self _ _)
    have hrest : ∀ x ∈ rest, 0 ≤ x.2 := fun x hx => hnn x (List.mem_cons_of_mem _ hx)
    have hsum := sum_nonneg_of rest hrest
    simp only [List.map_cons, List.sum_cons] at hfit
    simp only [mapKeys, List.map_cons, List.nodup_cons] at hnd
    have hadd : add64 start s = start + s := add64_of_fit _ _ h0 hs (by omega)
    have hmem : ∀ n, n ∈ mapKeys ((k, s) :: rest) → k ≠ n → n ∈ mapKeys rest := by
      intro n hn hk
      simp only [mapKeys, List.map_cons, List.mem_cons] at hn
      rcases hn with hn | hn
      · exact absurd hn.symm hk
      · exact hn
    simp only [offsetsFrom, hadd]
    by_cases hk1 : k = n1
    · subst hk1
      have hk2 : k ≠ n2 := hne
      have hb := region_bounds_of_fit rest (start + s) (by omega) hrest (by omega) hnd.2 n2
        (hmem n2 hn2 hk2)
      rw [mapIndex_cons_self, mapIndex_cons_self, mapIndex_cons_ne _ _ _ _ hk2]
      left
      omega
    · by_cases hk2 : k = n2
      · subst hk2
        have hb := region_bounds_of_fit rest (start + s) (by omega) hrest (by omega) hnd.2 n1
          (hmem n1 hn1 hk1)
        rw [mapIndex_cons_self, mapIndex_cons_self, mapIndex_cons_ne _ _ _ _ hk1]
        right
        omega
      · rw [mapIndex_cons_ne _ _ _ _ hk1, mapIndex_cons_ne _ _ _ _ hk2,
          mapIndex_cons_ne _ _ _ _ hk1, mapIndex_cons_ne _ _ _ _ hk2]
        exact ih (start + s) (by omega) hrest (by omega) hnd.2 n1 (hmem n1 hn1 hk1) n2
          (hmem n2 hn2 hk2) hne

theorem layerTensors_of_fit (cfg : GPT2Config) (hC : 0 ≤ cfg.Channels)
    (hX : 12 * cfg.Channels * cfg.Channels + 13 * cfg.Channels < 2 ^ 63) :
    (∀ e ∈ layerTensors cfg, 0 ≤ e.2)
      ∧ ((layerTensors cfg).map Prod.snd).sum
          = 12 * cfg.Channels * cfg.Channels + 13 * cfg.Channels := by
  have hcc : 0 ≤ cfg.Channels * cfg.Channels := mul_nonneg hC hC
  have h3 : mul64 3 cfg.Channels = 3 * cfg.Channels :=
    mul64_of_fit _ _ (by linarith) (by linarith)
  have h4 : mul64 4 cfg.Channels = 4 * cfg.Channels :=
    mul64_of_fit _ _ (by linarith) (by linarith)
  have h4r : mul64 cfg.Channels 4 = cfg.Channels * 4 :=
    mul64_of_fit _ _ (by linarith) (by linarith)
  have hc : mul64 cfg.Channels cfg.Channels = cfg.Channels * cfg.Channels :=
    mul64_of_fit _ _ hcc (by linarith)
  have h3c : mul64 (3 * cfg.Channels) cfg.Channels = 3 * cfg.Channels * cfg.Channels :=
    mul64_of_fit _ _ (by nlinarith) (by nlinarith)
  have h4c : mul64 (4 * cfg.Channels) cfg.Channels = 4 * cfg.Channels * cfg.Channels :=
    mul64_of_fit _ _ (by nlinarith) (by nlinarith)
  have h4rc : mul64 (cfg.Channels * 4) cfg.Channels = cfg.Channels * 4 * cfg.Channels :=
    mul64_of_fit _ _ (by nlinarith) (by nlinarith)
  simp only [layerTensors, h3, h4, h4r, hc, h3c, h4c, h4rc]
  constructor
  · intro e he
    simp only [List.mem_cons, List.mem_singleton, List.not_mem_nil, or_false] at he
    rcases he with h | h | h | h | h | h | h | h | h | h | h | h <;> subst h <;>
      simp only <;> nlinarith
  · simp only [List.map_cons, List.map_nil, List.sum_cons, List.sum_nil]
    ring

theorem layerEmissions_nonneg (cfg : GPT2Config) (i : Nat)
    (h : ∀ e ∈ layerTensors cfg, 0 ≤ e.2) : ∀ e ∈ layerEmissions cfg i, 0 ≤ e.2 := by
  intro e he
  obtain ⟨p, hp, hpe⟩ := List.mem_map.mp he
  subst hpe
  exact h p hp

theorem layersEmissions_of_fit (cfg : GPT2Config) (n : Nat)
    (h : (∀ e ∈ layerTensors cfg, 0 ≤ e.2)
      ∧ ((layerTensors cfg).map Prod.snd).sum
          = 12 * cfg.Channels * cfg.Channels + 13 * cfg.Channels) :
    (∀ e ∈ layersEmissions cfg n, 0 ≤ e.2)
      ∧ ((layersEmissions cfg n).map Prod.snd).sum
          = (n : Int) * (12 * cfg.Channels * cfg.Channels + 13 * cfg.Channels) := by
  induction n with
  | zero => simp [layersEmissions]
  | succ n ih =>
    constructor
    · intro e he
      rw [layersEmissions] at he
      rcases List.mem_append.mp he with he | he
      · exact ih.1 e he
      · exact layerEmissions_nonneg cfg n h.1 e he
    · rw [layersEmissions, List.map_append, List.sum_append, sum_layerEmissions, ih.2, h.2]
      push_cast
      ring

/-- When the closed form fits in `int64`, no size wraps: every emitted size is
non-negative and the sizes add up to the closed form. -/
theorem emissions_of_fit (cfg : GPT2Config) (hP : 0 ≤ cfg.PaddedVocabSize)
    (hS : 0 ≤ cfg.MaxSeqLen) (hC : 0 ≤ cfg.Channels) (hfit : exactTotal cfg < 2 ^ 63) :
    (∀ e ∈ emissions cfg, 0 ≤ e.2) ∧ ((emissions cfg).map Prod.snd).sum = exactTotal cfg := by
  have hcc : 0 ≤ cfg.Channels * cfg.Channels := mul_nonneg hC hC
  have hX : 0 ≤ 12 * cfg.Channels * cfg.Channels + 13 * cfg.Channels := by nlinarith
  have hn : (0 : Int) ≤ (cfg.NumLayers.toNat : Int) := Int.ofNat_nonneg _
  have hnX : 0 ≤ (cfg.NumLayers.toNat : Int)
      * (12 * cfg.Channels * cfg.Channels + 13 * cfg.Channels) := mul_nonneg hn hX
  have hPC : 0 ≤ cfg.PaddedVocabSize * cfg.Channels := mul_nonneg hP hC
  have hSC : 0 ≤ cfg.MaxSeqLen * cfg.Channels := mul_nonneg hS hC
  unfold exactTotal at hfit
  have hwte : mul64 cfg.PaddedVocabSize cfg.Channels = cfg.PaddedVocabSize * cfg.Channels :=
    mul64_of_fit _ _ hPC (by linarith)
  have hwpe : mul64 cfg.MaxSeqLen cfg.Channels = cfg.MaxSeqLen * cfg.Channels :=
    mul64_of_fit _ _ hSC (by linarith)
  have hlayers : (∀ e ∈ layersEmissions cfg cfg.NumLayers.toNat, 0 ≤ e.2)
      ∧ ((layersEmissions cfg cfg.NumLayers.toNat).map Prod.snd).sum
          = (cfg.NumLayers.toNat : Int)
              * (12 * cfg.Channels * cfg.Channels + 13 * cfg.Channels) := by
    rcases Nat.eq_zero_or_pos cfg.NumLayers.toNat with h0 | hpos
    · rw [h0]
      simp [layersEmissions]
    · have h1 : (1 : Int) ≤ (cfg.NumLayers.toNat : Int) := by exact_mod_cast hpos
      have hle : 12 * cfg.Channels * cfg.Channels + 13 * cfg.Channels
          ≤ (cfg.NumLayers.toNat : Int)
              * (12 * cfg.Channels * cfg.Channels + 13 * cfg.Channels) := by
        nlinarith
      exact layersEmissions_of_fit cfg _ (layerTensors_of_fit cfg hC (by linarith))
  unfold emissions exactTotal
  rw [hwte, hwpe]
  constructor
  · intro e he
    simp only [List.mem_append, List.mem_cons, List.mem_singleton, List.not_mem_nil,
      or_false] at he
    rcases he with (((h | h) | h) | (h | h))
    · subst h; exact hPC
    · subst h; exact hSC
    · exact hlayers.1 e h
    · subst h; exact hC
    · subst h; exact hC
  · simp only [List.map_append, List.sum_append, List.map_cons, List.map_nil, List.sum_cons,
      List.sum_nil, hlayers.2]
    ring

theorem validate_none_iff (c : GPT2Config) :
    c.Validate.2 = none ↔
      0 < c.MaxSeqLen ∧ 0 < c.VocabSize ∧ 0 < c.PaddedVocabSize ∧ 0 < c.NumLayers
        ∧ 0 < c.NumHeads ∧ 0 < c.Channels := by
  unfold GPT2Config.Validate
  constructor
  · intro h
    split_ifs at h with h1 h2 h3 h4 h5 h6
    exact ⟨by omega, by omega, by omega, by omega, by omega, by omega⟩
  · rintro ⟨h1, h2, h3, h4, h5, h6⟩
    rw [if_neg (by omega), if_neg (by omega), if_neg (by omega), if_neg (by omega),
      if_neg (by omega), if_neg (by omega)]

/-! ## The loader -/

theorem readFull_length (n : Nat) (rest a b : List Byte)
    (h : readFull n rest = Except.ok (a, b)) : a.length = n := by
  unfold readFull at h
  split_ifs at h with h0 h1 h2
  · cases h
    simp [h0]
  · cases h
    simp only [List.length_take]
    omega

theorem decodeFloat32s_length (n : Nat) :
    ∀ bs : List Byte, bs.length = 4 * n → (decodeFloat32s bs).length = n := by
  induction n with
  | zero =>
    intro bs h
    have : bs = [] := List.length_eq_zero.mp (by omega)
    subst this
    rfl
  | succ n ih =>
    intro bs h
    match bs, h with
    | b0 :: b1 :: b2 :: b3 :: rest, h =>
      simp only [decodeFloat32s, List.length_cons]
      rw [ih rest (by simp only [List.length_cons] at h; omega)]

theorem makeFloat32s_of_within (maxAlloc : Nat) (n : Int) (h : withinAllocLimit maxAlloc n) :
    makeFloat32s maxAlloc n = some (List.replicate n.toNat 0) := by
  obtain ⟨h0, h1, h2⟩ := h
  unfold makeFloat32s
  rw [if_neg (by omega)]

theorem makeFloat32s_of_beyond (maxAlloc : Nat) (n : Int) (h : ¬ withinAllocLimit maxAlloc n) :
    makeFloat32s maxAlloc n = none := by
  unfold withinAllocLimit at h
  unfold makeFloat32s
  rw [if_pos (by omega)]

theorem makeFloat32s_some (maxAlloc : Nat) (n : Int) (buffer : List Float32)
    (h : makeFloat32s maxAlloc n = some buffer) :
    withinAllocLimit maxAlloc n ∧ buffer = List.replicate n.toNat 0 := by
  by_cases hw : withinAllocLimit maxAlloc n
  · rw [makeFloat32s_of_within _ _ hw] at h
    exact ⟨hw, (Option.some.inj h).symm⟩
  · rw [makeFloat32s_of_beyond _ _ hw] at h
    exact absurd h (by simp)

theorem readParameters_ok (maxAlloc : Nat) (model m : GPT2) (rest : List Byte)
    (h : readParameters maxAlloc model rest = Outcome.ok m) :
    0 ≤ model.NumParameters
      ∧ ∃ ps : List Float32, (ps.length : Int) = model.NumParameters
          ∧ m = { model with Parameters := ps } := by
  unfold readParameters at h
  split at h
  · exact absurd h (by simp)
  · rename_i buffer hmake
    obtain ⟨hw, hbuf⟩ := makeFloat32s_some _ _ _ hmake
    split at h
    · exact absurd h (by simp)
    · rename_i paramBytes rest2 hread
      simp only [Outcome.ok.injEq] at h
      refine ⟨hw.1, decodeFloat32s paramBytes, ?_, h.symm⟩
      rw [decodeFloat32s_length _ _ (readFull_length _ _ _ _ hread), hbuf,
        List.length_replicate]
      exact Int.toNat_of_nonneg hw.1

theorem readParameters_ok_within (maxAlloc : Nat) (model m : GPT2) (rest : List Byte)
    (h : readParameters maxAlloc model rest = Outcome.ok m) :
    withinAllocLimit maxAlloc model.NumParameters := by
  by_cases hw : withinAllocLimit maxAlloc model.NumParameters
  · exact hw
  · unfold readParameters at h
    rw [makeFloat32s_of_beyond _ _ hw] at h
    exact absurd h (by simp)

theorem loadAfterHeader_ok (maxAlloc : Nat) (header : List Int) (rest : List Byte) (m : GPT2)
    (h : loadAfterHeader maxAlloc header rest = Outcome.ok m) :
    headerAt header 0 = 20240326 ∧ headerAt header 1 = 3
      ∧ (configOfHeader header).Validate.2 = none
      ∧ readParameters maxAlloc (layoutOf (configOfHeader header)) rest = Outcome.ok m := by
  unfold loadAfterHeader at h
  split_ifs at h with hmagic hversion
  split at h
  · exact absurd h (by simp)
  · rename_i hval
    exact ⟨not_not.mp hmagic, not_not.mp hversion, hval, h⟩

/-- What a successful load returns: the layout of the configuration read from
the header, which passes `Validate`, and a buffer of `NumParameters` values. -/
theorem loadCheckpoint_ok (maxAlloc : Nat) (file : List Byte) (m : GPT2)
    (h : loadCheckpoint maxAlloc file = Outcome.ok m) :
    m.Config.Validate.2 = none
      ∧ m.ParamOffsets = (layoutOf m.Config).ParamOffsets
      ∧ m.ParamSizes = (layoutOf m.Config).ParamSizes
      ∧ m.NumParameters = (layoutOf m.Config).NumParameters
      ∧ 0 ≤ m.NumParameters
      ∧ (m.Parameters.length : Int) = m.NumParameters := by
  unfold loadCheckpoint at h
  split at h
  · exact absurd h (by simp)
  · rename_i headerBytes rest hhead
    obtain ⟨_, _, hval, hread⟩ := loadAfterHeader_ok _ _ _ _ h
    obtain ⟨hnn, ps, hlen, hm⟩ := readParameters_ok _ _ _ _ hread
    have hcfg : (layoutOf (configOfHeader (decodeInt32s headerBytes))).Config
        = configOfHeader (decodeInt32s headerBytes) := (layoutOf_fields _).2.2.2.1
    subst hm
    simp only [hcfg]
    exact ⟨hval, trivial, trivial, trivial, hnn, hlen⟩

theorem newGPT2FromCheckpoint_ok (maxAlloc : Nat) (fs : String → Except String (List Byte))
    (path : String) (m : GPT2) (h : NewGPT2FromCheckpoint maxAlloc fs path = Outcome.ok m) :
    ∃ file, fs path = Except.ok file ∧ loadCheckpoint maxAlloc file = Outcome.ok m := by
  unfold NewGPT2FromCheckpoint at h
  split at h
  · exact absurd h (by simp)
  · rename_i file hfile
    exact ⟨file, hfile, h⟩

/-! ## The key set and the accessor -/

/-- The key set of the layout. -/
theorem mem_constructionOrder (cfg : GPT2Config) (x : String) :
    x ∈ constructionOrder cfg ↔
      x = "wte" ∨ x = "wpe"
        ∨ (∃ i, i < cfg.NumLayers.toNat ∧ ∃ s, s ∈ layerSuffixes ∧ x = layerName i ++ s)
        ∨ x = "ln_f.weight" ∨ x = "ln_f.bias" := by
  unfold constructionOrder emissions
  change x ∈ mapKeys _ ↔ _
  rw [mapKeys_append, mapKeys_append, List.mem_append, List.mem_append,
    mem_mapKeys_layersEmissions]
  simp only [mapKeys, List.map_cons, List.map_nil, List.mem_cons, List.mem_singleton,
    List.not_mem_nil, or_false]
  constructor
  · rintro (((h | h) | h) | (h | h))
    · exact Or.inl h
    · exact Or.inr (Or.inl h)
    · exact Or.inr (Or.inr (Or.inl h))
    · exact Or.inr (Or.inr (Or.inr (Or.inl h)))
    · exact Or.inr (Or.inr (Or.inr (Or.inr h)))
  · rintro (h | h | h | h | h)
    · exact Or.inl (Or.inl (Or.inl h))
    · exact Or.inl (Or.inl (Or.inr h))
    · exact Or.inl (Or.inr h)
    · exact Or.inr (Or.inl h)
    · exact Or.inr (Or.inr h)

theorem mapKeys_layoutOf (cfg : GPT2Config) :
    mapKeys (layoutOf cfg).ParamOffsets = constructionOrder cfg
      ∧ mapKeys (layoutOf cfg).ParamSizes = constructionOrder cfg := by
  rw [(layoutOf_fields cfg).1, (layoutOf_fields cfg).2.1, mapKeys_offsetsFrom]
  exact ⟨rfl, rfl⟩

theorem getParameter_error_iff (m : GPT2) (name : String) :
    (∃ e, GetParameter m name = Outcome.error e) ↔ name ∉ mapKeys m.ParamOffsets := by
  rw [← mapGet_eq_none_iff]
  unfold GetParameter
  cases hget : mapGet m.ParamOffsets name with
  | none => simp
  | some offset =>
    simp only [reduceCtorEq, iff_false, not_exists]
    intro e
    split <;> simp

theorem getParameter_error_of_not_mem (m : GPT2) (name : String)
    (h : name ∉ mapKeys m.ParamOffsets) :
    GetParameter m name = Outcome.error ("parameter " ++ name ++ " not found") := by
  unfold GetParameter
  rw [(mapGet_eq_none_iff _ _).mpr h]

theorem mapGet_of_mem (m : GoMap) (k : String) (h : k ∈ mapKeys m) :
    mapGet m k = some (mapIndex m k) := by
  cases hget : mapGet m k with
  | none => exact absurd h ((mapGet_eq_none_iff m k).mp hget)
  | some v => simp [mapIndex, hget]

theorem getParameter_of_bounds (m : GPT2) (name : String) (hk : name ∈ mapKeys m.ParamOffsets)
    (hoff : 0 ≤ mapIndex m.ParamOffsets name) (hsize : 0 ≤ mapIndex m.ParamSizes name)
    (hend : mapIndex m.ParamOffsets name + mapIndex m.ParamSizes name
      ≤ (m.Parameters.length : Int))
    (hlen : (m.Parameters.length : Int) < 2 ^ 63) :
    GetParameter m name = Outcome.ok
      ((m.Parameters.drop (mapIndex m.ParamOffsets name).toNat).take
        (mapIndex m.ParamSizes name).toNat) := by
  unfold GetParameter
  rw [mapGet_of_mem _ _ hk]
  dsimp only
  rw [add64_of_fit _ _ hoff hsize (by omega)]
  unfold sliceExpr
  rw [if_pos ⟨hoff, by omega, hend⟩]
  dsimp only
  rw [Int.toNat_add hoff hsize, Nat.add_sub_cancel_left]

theorem getParameter_panic_of_bounds (m : GPT2) (name : String)
    (hk : name ∈ mapKeys m.ParamOffsets)
    (hbad : ¬ (0 ≤ mapIndex m.ParamOffsets name
      ∧ mapIndex m.ParamOffsets name
          ≤ add64 (mapIndex m.ParamOffsets name) (mapIndex m.ParamSizes name)
      ∧ add64 (mapIndex m.ParamOffsets name) (mapIndex m.ParamSizes name)
          ≤ (m.Parameters.length : Int))) :
    GetParameter m name = Outcome.panic "slice bounds out of range" := by
  unfold GetParameter
  rw [mapGet_of_mem _ _ hk]
  dsimp only
  unfold sliceExpr
  rw [if_neg hbad]

theorem nonexistent_not_key (cfg : GPT2Config) : "nonexistent" ∉ constructionOrder cfg := by
  rw [mem_constructionOrder]
  rintro (h | h | ⟨i, _, s, _, h⟩ | h | h)
  · exact absurd h (by decide)
  · exact absurd h (by decide)
  · exact layerKey_ne_of_head i s "nonexistent" 'n' _ rfl (by decide) h.symm
  · exact absurd h (by decide)
  · exact absurd h (by decide)

/-! ## The first and the last region -/

theorem offsetsFrom_append (a b : List (String × Int)) :
    ∀ start, offsetsFrom start (a ++ b)
      = offsetsFrom start a ++ offsetsFrom (offsetAfter start a) b := by
  induction a with
  | nil => intro start; rfl
  | cons e rest ih =>
    intro start
    obtain ⟨n, s⟩ := e
    simp only [List.cons_append, offsetsFrom, offsetAfter, List.append_eq, ih]

theorem offsetAfter_append (a b : List (String × Int)) :
    ∀ start, offsetAfter start (a ++ b) = offsetAfter (offsetAfter start a) b := by
  induction a with
  | nil => intro start; rfl
  | cons e rest ih =>
    intro start
    obtain ⟨n, s⟩ := e
    simp only [List.cons_append, offsetAfter, List.append_eq, ih]

theorem mapIndex_append_of_not_mem (a b : GoMap) (k : String) (h : k ∉ mapKeys a) :
    mapIndex (a ++ b) k = mapIndex b k := by
  induction a with
  | nil => rfl
  | cons e rest ih =>
    obtain ⟨k', v⟩ := e
    simp only [mapKeys, List.map_cons, List.mem_cons, not_or] at h
    have hne : k' ≠ k := fun hh => h.1 hh.symm
    rw [List.cons_append, mapIndex_cons_ne _ _ _ _ hne]
    exact ih h.2

/-- The regions emitted before `ln_f.bias`. -/
theorem emissions_split (cfg : GPT2Config) :
    emissions cfg
      = ([ ("wte", mul64 cfg.PaddedVocabSize cfg.Channels)
         , ("wpe", mul64 cfg.MaxSeqLen cfg.Channels) ]
         ++ layersEmissions cfg cfg.NumLayers.toNat ++ [("ln_f.weight", cfg.Channels)])
        ++ [("ln_f.bias", cfg.Channels)] := by
  unfold emissions
  simp only [List.append_assoc, List.cons_append, List.nil_append]

theorem wte_region (cfg : GPT2Config) :
    mapIndex (layoutOf cfg).ParamOffsets "wte" = 0
      ∧ mapIndex (layoutOf cfg).ParamSizes "wte"
          = wrap64 (cfg.PaddedVocabSize * cfg.Channels) := by
  rw [(layoutOf_fields cfg).1, (layoutOf_fields cfg).2.1]
  exact ⟨rfl, rfl⟩

theorem lnfb_region (cfg : GPT2Config) :
    add64 (mapIndex (layoutOf cfg).ParamOffsets "ln_f.bias") cfg.Channels
        = (layoutOf cfg).NumParameters
      ∧ mapIndex (layoutOf cfg).ParamSizes "ln_f.bias" = cfg.Channels := by
  have hnd := nodup_constructionOrder cfg
  unfold constructionOrder at hnd
  rw [(layoutOf_fields cfg).1, (layoutOf_fields cfg).2.1, (layoutOf_fields cfg).2.2.1]
  rw [emissions_split] at hnd ⊢
  rw [List.map_append] at hnd
  have hnot := (List.nodup_append.mp hnd).2.2
  have hk : "ln_f.bias" ∉ mapKeys ([ ("wte", mul64 cfg.PaddedVocabSize cfg.Channels)
         , ("wpe", mul64 cfg.MaxSeqLen cfg.Channels) ]
         ++ layersEmissions cfg cfg.NumLayers.toNat ++ [("ln_f.weight", cfg.Channels)]) := by
    intro hmem
    exact hnot hmem (by simp)
  rw [offsetsFrom_append,
    mapIndex_append_of_not_mem _ _ _ (by rw [mapKeys_offsetsFrom]; exact hk),
    mapIndex_append_of_not_mem _ _ _ hk]
  simp only [offsetAfter_append]
  exact ⟨rfl, rfl⟩

/-! ## Lemmas for the statements of the claims -/

theorem mapKeys_layersEmissions (cfg : GPT2Config) (n : Nat) :
    mapKeys (layersEmissions cfg n)
      = (List.range n).flatMap (fun i => layerSuffixes.map (fun s => layerName i ++ s)) := by
  induction n with
  | zero => rfl
  | succ n ih =>
    rw [layersEmissions, mapKeys_append, ih, List.range_succ, List.flatMap_append,
      List.flatMap_singleton, mapKeys_layerEmissions]

theorem constructionOrder_eq (cfg : GPT2Config) :
    constructionOrder cfg
      = ["wte", "wpe"]
        ++ (List.range cfg.NumLayers.toNat).flatMap
            (fun i => layerSuffixes.map (fun s => layerName i ++ s))
        ++ ["ln_f.weight", "ln_f.bias"] := by
  unfold constructionOrder emissions
  change mapKeys _ = _
  rw [mapKeys_append, mapKeys_append, mapKeys_layersEmissions]
  rfl

theorem lnfw_size (cfg : GPT2Config) :
    mapIndex (layoutOf cfg).ParamSizes "ln_f.weight" = cfg.Channels := by
  have hnd := nodup_constructionOrder cfg
  unfold constructionOrder at hnd
  rw [(layoutOf_fields cfg).2.1]
  unfold emissions at hnd ⊢
  rw [List.map_append] at hnd
  have hnot := (List.nodup_append.mp hnd).2.2
  rw [mapIndex_append_of_not_mem _ _ _ (fun hmem => hnot hmem (by simp))]
  rfl

theorem wpe_size (cfg : GPT2Config) :
    mapIndex (layoutOf cfg).ParamSizes "wpe" = wrap64 (cfg.MaxSeqLen * cfg.Channels) := by
  rw [(layoutOf_fields cfg).2.1]
  rfl

theorem layerEmissions_wrap (cfg : GPT2Config) (i : Nat) :
    layerEmissions cfg i =
      [ (layerName i ++ "_ln1.weight", cfg.Channels)
      , (layerName i ++ "_ln1.bias", cfg.Channels)
      , (layerName i ++ ".attn.qkv.weight", wrap64 (3 * cfg.Channels * cfg.Channels))
      , (layerName i ++ ".attn.qkv.bias", wrap64 (3 * cfg.Channels))
      , (layerName i ++ ".attn.proj.weight", wrap64 (cfg.Channels * cfg.Channels))
      , (layerName i ++ ".attn.proj.bias", cfg.Channels)
      , (layerName i ++ ".ln_2.weight", cfg.Channels)
      , (layerName i ++ ".ln_2.bias", cfg.Channels)
      , (layerName i ++ ".mlp.fc.weight", wrap64 (4 * cfg.Channels * cfg.Channels))
      , (layerName i ++ ".mlp.fc.bias", wrap64 (4 * cfg.Channels))
      , (layerName i ++ ".mlp.proj.weight", wrap64 (4 * cfg.Channels * cfg.Channels))
      , (layerName i ++ ".mlp.proj.bias", cfg.Channels) ] := by
  have h3 : mul64 (mul64 3 cfg.Channels) cfg.Channels
      = wrap64 (3 * cfg.Channels * cfg.Channels) := mul64_wrap_left _ _
  have h4 : mul64 (mul64 4 cfg.Channels) cfg.Channels
      = wrap64 (4 * cfg.Channels * cfg.Channels) := mul64_wrap_left _ _
  have h4r : mul64 (mul64 cfg.Channels 4) cfg.Channels
      = wrap64 (4 * cfg.Channels * cfg.Channels) := by
    have h : mul64 (mul64 cfg.Channels 4) cfg.Channels
        = wrap64 (cfg.Channels * 4 * cfg.Channels) := mul64_wrap_left _ _
    rw [h, mul_comm cfg.Channels 4]
  simp only [layerEmissions, layerTensors, List.map_cons, List.map_nil, h3, h4, h4r]
  rfl

theorem length_emissions (cfg : GPT2Config) :
    (emissions cfg).length = 12 * cfg.NumLayers.toNat + 4 := by
  unfold emissions
  simp only [List.length_append, length_layersEmissions, List.length_cons, List.length_nil]
  omega

theorem length_offsetsFrom (es : List (String × Int)) :
    ∀ start, (offsetsFrom start es).length = es.length := by
  induction es with
  | nil => intro start; rfl
  | cons e rest ih =>
    intro start
    obtain ⟨n, s⟩ := e
    simp only [offsetsFrom, List.length_cons, ih]

theorem emitAll_offset (es : List (String × Int)) :
    ∀ st : LayoutState, (emitAll st es).offset = offsetAfter st.offset es := by
  induction es with
  | nil => intro st; rfl
  | cons e rest ih =>
    intro st
    obtain ⟨n, s⟩ := e
    have hstep : emitAll st ((n, s) :: rest) = emitAll (emit st n s) rest := by
      simp [emitAll]
    rw [hstep, ih]
    rfl

/-- The total computed by `calculateParameterSizes` depends on the
configuration only, whatever the maps hold before the call. -/
theorem numParameters_any_model (m : GPT2) :
    (calculateParameterSizes m).NumParameters = wrap64 (exactTotal m.Config) := by
  have h : (calculateParameterSizes m).NumParameters
      = (emitAll { ParamOffsets := m.ParamOffsets, ParamSizes := m.ParamSizes, offset := 0 }
          (emissions m.Config)).offset := by
    unfold calculateParameterSizes
    simp only [layoutRun_eq]
  rw [h, emitAll_offset, offsetAfter_zero]
  exact wrap64_congr (sum_emissions m.Config)

/-! ## Reading a stream -/

theorem readFull_of_enough (n : Nat) (rest : List Byte) (h : n ≤ rest.length) :
    readFull n rest = Except.ok (rest.take n, rest.drop n) := by
  unfold readFull
  by_cases h0 : n = 0
  · subst h0
    simp
  · rw [if_neg h0, if_neg (by omega), if_neg (by omega)]

theorem readFull_of_short (n : Nat) (rest : List Byte) (h : rest.length < n) :
    readFull n rest = Except.error (if rest.length = 0 then "EOF" else "unexpected EOF") := by
  unfold readFull
  rw [if_neg (by omega)]
  by_cases h0 : rest.length = 0
  · rw [if_pos h0, if_pos h0]
  · rw [if_neg h0, if_pos h, if_neg h0]

/-- On a file that holds a complete header the loader runs the checks on the
decoded header and reads the parameters from the rest. -/
theorem loadCheckpoint_of_complete (maxAlloc : Nat) (file : List Byte)
    (h : 4 * 256 ≤ file.length) :
    loadCheckpoint maxAlloc file = loadAfterHeader maxAlloc (headerOf file) (dataOf file) := by
  unfold loadCheckpoint
  rw [readFull_of_enough _ _ h]
  rfl

theorem loadCheckpoint_of_incomplete (maxAlloc : Nat) (file : List Byte)
    (h : file.length < 4 * 256) : ∃ e, loadCheckpoint maxAlloc file = Outcome.error e := by
  unfold loadCheckpoint
  rw [readFull_of_short _ _ h]
  exact ⟨_, rfl⟩

theorem newGPT2FromCheckpoint_of_file (maxAlloc : Nat)
    (fs : String → Except String (List Byte)) (path : String)
    (file : List Byte) (h : fs path = Except.ok file) :
    NewGPT2FromCheckpoint maxAlloc fs path = loadCheckpoint maxAlloc file := by
  unfold NewGPT2FromCheckpoint
  rw [h]

theorem decodeFloat32s_take (n : Nat) :
    ∀ bs : List Byte, decodeFloat32s (bs.take (4 * n)) = (decodeFloat32s bs).take n := by
  induction n with
  | zero => intro bs; simp [decodeFloat32s]
  | succ n ih =>
    intro bs
    match bs with
    | [] => simp [decodeFloat32s]
    | [b0] => simp [decodeFloat32s, Nat.mul_succ]
    | [b0, b1] => simp [decodeFloat32s, Nat.mul_succ]
    | [b0, b1, b2] => simp [decodeFloat32s, Nat.mul_succ]
    | b0 :: b1 :: b2 :: b3 :: rest =>
      have h4 : 4 * (n + 1) = 4 * n + 1 + 1 + 1 + 1 := by ring
      rw [h4]
      simp only [List.take_succ_cons, decodeFloat32s, ih]

theorem readParameters_of_enough (maxAlloc : Nat) (model : GPT2) (rest : List Byte)
    (hw : withinAllocLimit maxAlloc model.NumParameters)
    (h : 4 * model.NumParameters.toNat ≤ rest.length) :
    readParameters maxAlloc model rest = Outcome.ok
      { model with Parameters := (decodeFloat32s rest).take model.NumParameters.toNat } := by
  unfold readParameters
  rw [makeFloat32s_of_within _ _ hw]
  dsimp only
  rw [List.length_replicate, readFull_of_enough _ _ h]
  simp only [decodeFloat32s_take]

theorem readParameters_of_short (maxAlloc : Nat) (model : GPT2) (rest : List Byte)
    (hw : withinAllocLimit maxAlloc model.NumParameters)
    (h : rest.length < 4 * model.NumParameters.toNat) :
    readParameters maxAlloc model rest = Outcome.error ("failed to read parameters: "
      ++ (if rest.length = 0 then "EOF" else "unexpected EOF")) := by
  unfold readParameters
  rw [makeFloat32s_of_within _ _ hw]
  dsimp only
  rw [List.length_replicate, readFull_of_short _ _ h]

theorem readParameters_of_beyond (maxAlloc : Nat) (model : GPT2) (rest : List Byte)
    (hw : ¬ withinAllocLimit maxAlloc model.NumParameters) :
    readParameters maxAlloc model rest = Outcome.panic "makeslice: len out of range" := by
  unfold readParameters
  rw [makeFloat32s_of_beyond _ _ hw]

theorem validate_of_validHeader (header : List Int) (h : validHeader header) :
    (configOfHeader header).Validate.2 = none := by
  obtain ⟨_, _, h2, h3, h4, h5, h6, h7⟩ := h
  exact (validate_none_iff _).mpr ⟨h2, h3, h7, h4, h5, h6⟩

/-- After a header that passes the checks the loader goes on to read the
parameters into the layout of the configuration of the header. -/
theorem loadAfterHeader_of_valid (maxAlloc : Nat) (header : List Int) (rest : List Byte)
    (h : validHeader header) :
    loadAfterHeader maxAlloc header rest
      = readParameters maxAlloc (layoutOf (configOfHeader header)) rest := by
  have hval := validate_of_validHeader header h
  unfold loadAfterHeader
  rw [if_neg (not_not.mpr h.1), if_neg (not_not.mpr h.2.1)]
  rw [hval]
  rfl

/-! ## Writing and reading back -/

theorem leUint32_float32Bytes (f : Nat) (h : f < 2 ^ 32) :
    decodeFloat32s (float32Bytes f) = [f] := by
  simp only [float32Bytes, decodeFloat32s, leUint32, Fin.ofNat, List.cons.injEq, and_true,
    Nat.reduceAdd, Nat.mod_mod]
  have h2 : f / 65536 = f / 256 / 256 := by rw [Nat.div_div_eq_div_mul]
  have h3 : f / 16777216 = f / 256 / 256 / 256 := by
    rw [Nat.div_div_eq_div_mul, Nat.div_div_eq_div_mul]
  rw [h2, h3]
  have e1 := Nat.div_add_mod f 256
  have e2 := Nat.div_add_mod (f / 256) 256
  have e3 := Nat.div_add_mod (f / 256 / 256) 256
  have e4 : f / 256 / 256 / 256 < 256 := by
    rw [Nat.div_div_eq_div_mul, Nat.div_div_eq_div_mul]
    exact Nat.div_lt_of_lt_mul (by simpa using h)
  rw [Nat.mod_eq_of_lt e4]
  generalize f / 256 / 256 / 256 = q3 at *
  generalize f / 256 / 256 % 256 = r2 at *
  generalize f / 256 / 256 = q2 at *
  generalize f / 256 % 256 = r1 at *
  generalize f / 256 = q1 at *
  generalize f % 256 = r0 at *
  rw [← e1, ← e2, ← e3]
  ring

theorem leInt32_int32Bytes (v : Int) (hlo : -2 ^ 31 ≤ v) (hhi : v < 2 ^ 31) :
    decodeInt32s (int32Bytes v) = [v] := by
  simp only [int32Bytes, decodeInt32s, leInt32, leUint32, Fin.ofNat, List.cons.injEq, and_true,
    Nat.reduceAdd, Nat.mod_mod]
  split_ifs with h <;> omega

theorem decodeInt32s_cons4 (b0 b1 b2 b3 : Byte) (rest : List Byte) :
    decodeInt32s (b0 :: b1 :: b2 :: b3 :: rest) = leInt32 b0 b1 b2 b3 :: decodeInt32s rest := rfl

theorem decodeInt32s_append (v : Int) (rest : List Byte) :
    decodeInt32s (int32Bytes v ++ rest) = decodeInt32s (int32Bytes v) ++ decodeInt32s rest := rfl

theorem decodeFloat32s_append (f : Nat) (rest : List Byte) :
    decodeFloat32s (float32Bytes f ++ rest)
      = decodeFloat32s (float32Bytes f) ++ decodeFloat32s rest := rfl

theorem decodeInt32s_encode (values : List Int)
    (h : ∀ v ∈ values, -2 ^ 31 ≤ v ∧ v < 2 ^ 31) :
    decodeInt32s (encodeInt32s values) = values := by
  induction values with
  | nil => rfl
  | cons v rest ih =>
    have hv := h v (List.mem_cons_self _ _)
    unfold encodeInt32s at ih ⊢
    rw [List.flatMap_cons, decodeInt32s_append, leInt32_int32Bytes v hv.1 hv.2,
      ih (fun x hx => h x (List.mem_cons_of_mem _ hx))]
    rfl

theorem decodeFloat32s_encode (values : List Float32) (h : ∀ f ∈ values, f < 2 ^ 32) :
    decodeFloat32s (encodeFloat32s values) = values := by
  induction values with
  | nil => rfl
  | cons v rest ih =>
    have hv := h v (List.mem_cons_self _ _)
    unfold encodeFloat32s at ih ⊢
    rw [List.flatMap_cons, decodeFloat32s_append, leUint32_float32Bytes v hv,
      ih (fun x hx => h x (List.mem_cons_of_mem _ hx))]
    rfl

theorem length_encodeInt32s (values : List Int) :
    (encodeInt32s values).length = 4 * values.length := by
  induction values with
  | nil => rfl
  | cons v rest ih =>
    unfold encodeInt32s at ih ⊢
    rw [List.flatMap_cons, List.length_append, ih]
    simp only [int32Bytes, List.length_cons, List.length_nil]
    omega

theorem length_encodeFloat32s (values : List Float32) :
    (encodeFloat32s values).length = 4 * values.length := by
  induction values with
  | nil => rfl
  | cons v rest ih =>
    unfold encodeFloat32s at ih ⊢
    rw [List.flatMap_cons, List.length_append, ih]
    simp only [float32Bytes, List.length_cons, List.length_nil]
    omega

/-- Header and data of a file written by `writeCheckpoint`. -/
theorem writeCheckpoint_parts (header : List Int) (parameters : List Float32)
    (hlen : header.length = 256) (hrange : ∀ v ∈ header, -2 ^ 31 ≤ v ∧ v < 2 ^ 31) :
    4 * 256 ≤ (writeCheckpoint header parameters).length
      ∧ headerOf (writeCheckpoint header parameters) = header
      ∧ dataOf (writeCheckpoint header parameters) = encodeFloat32s parameters := by
  have hl : (encodeInt32s header).length = 4 * 256 := by rw [length_encodeInt32s, hlen]
  unfold writeCheckpoint headerOf dataOf
  refine ⟨?_, ?_, ?_⟩
  · rw [List.length_append]; omega
  · rw [← hl, List.take_left]
    exact decodeInt32s_encode header hrange
  · rw [← hl, List.drop_left]

theorem configOfHeader_fields (header : List Int) :
    (configOfHeader header).MaxSeqLen = headerAt header 2
      ∧ (configOfHeader header).VocabSize = headerAt header 3
      ∧ (configOfHeader header).NumLayers = headerAt header 4
      ∧ (configOfHeader header).NumHeads = headerAt header 5
      ∧ (configOfHeader header).Channels = headerAt header 6
      ∧ (configOfHeader header).PaddedVocabSize = headerAt header 7 :=
  ⟨rfl, rfl, rfl, rfl, rfl, rfl⟩

theorem loadCheckpoint_config (maxAlloc : Nat) (file : List Byte) (m : GPT2)
    (h : loadCheckpoint maxAlloc file = Outcome.ok m) :
    4 * 256 ≤ file.length ∧ validHeader (headerOf file)
      ∧ m.Config = configOfHeader (headerOf file) := by
  by_cases hc : 4 * 256 ≤ file.length
  · rw [loadCheckpoint_of_complete _ _ hc] at h
    obtain ⟨hmagic, hversion, hval, hread⟩ := loadAfterHeader_ok _ _ _ _ h
    obtain ⟨_, ps, _, hm⟩ := readParameters_ok _ _ _ _ hread
    obtain ⟨h2, h3, h7, h4, h5, h6⟩ := (validate_none_iff _).mp hval
    refine ⟨hc, ⟨hmagic, hversion, h2, h3, h4, h5, h6, h7⟩, ?_⟩
    rw [hm]
    exact (layoutOf_fields _).2.2.2.1
  · obtain ⟨e, he⟩ := loadCheckpoint_of_incomplete maxAlloc file (by omega)
    rw [he] at h
    exact absurd h (by simp)

theorem loadAfterHeader_congr (maxAlloc : Nat) (h1 h2 : List Int) (rest : List Byte)
    (h : ∀ i, i < 8 → headerAt h1 i = headerAt h2 i) :
    loadAfterHeader maxAlloc h1 rest = loadAfterHeader maxAlloc h2 rest := by
  have hcfg : configOfHeader h1 = configOfHeader h2 := by
    unfold configOfHeader
    rw [h 2 (by omega), h 3 (by omega), h 4 (by omega), h 5 (by omega), h 6 (by omega),
      h 7 (by omega)]
  unfold loadAfterHeader
  rw [h 0 (by omega), h 1 (by omega), hcfg]

/-! ## The exact layout -/

theorem add64_eq_wrap (a b : Int) : add64 a b = wrap64 (a + b) := rfl

theorem mul64_eq_wrap (a b : Int) : mul64 a b = wrap64 (a * b) := rfl

theorem totalElementCount_eq (cfg : GPT2Config) :
    totalElementCount cfg
      = wrap64 (cfg.PaddedVocabSize * cfg.Channels + cfg.MaxSeqLen * cfg.Channels
          + cfg.NumLayers * (12 * cfg.Channels * cfg.Channels + 13 * cfg.Channels)
          + 2 * cfg.Channels) := by
  have h12 : mul64 (mul64 12 cfg.Channels) cfg.Channels ≡ 12 * cfg.Channels * cfg.Channels
      [ZMOD 2 ^ 64] := (mul64_modEq _ _).trans ((mul64_modEq _ _).mul_right _)
  have h13 := mul64_modEq 13 cfg.Channels
  have hX : add64 (mul64 (mul64 12 cfg.Channels) cfg.Channels) (mul64 13 cfg.Channels)
      ≡ 12 * cfg.Channels * cfg.Channels + 13 * cfg.Channels [ZMOD 2 ^ 64] :=
    (wrap64_modEq _).trans (h12.add h13)
  have hL : mul64 cfg.NumLayers
      (add64 (mul64 (mul64 12 cfg.Channels) cfg.Channels) (mul64 13 cfg.Channels))
      ≡ cfg.NumLayers * (12 * cfg.Channels * cfg.Channels + 13 * cfg.Channels)
      [ZMOD 2 ^ 64] := (mul64_modEq _ _).trans (hX.mul_left _)
  have hP := mul64_modEq cfg.PaddedVocabSize cfg.Channels
  have hS := mul64_modEq cfg.MaxSeqLen cfg.Channels
  have h2 := mul64_modEq 2 cfg.Channels
  have hPS : add64 (mul64 cfg.PaddedVocabSize cfg.Channels) (mul64 cfg.MaxSeqLen cfg.Channels)
      ≡ cfg.PaddedVocabSize * cfg.Channels + cfg.MaxSeqLen * cfg.Channels [ZMOD 2 ^ 64] :=
    (wrap64_modEq _).trans (hP.add hS)
  have hPSL : add64
      (add64 (mul64 cfg.PaddedVocabSize cfg.Channels) (mul64 cfg.MaxSeqLen cfg.Channels))
      (mul64 cfg.NumLayers
        (add64 (mul64 (mul64 12 cfg.Channels) cfg.Channels) (mul64 13 cfg.Channels)))
      ≡ cfg.PaddedVocabSize * cfg.Channels + cfg.MaxSeqLen * cfg.Channels
        + cfg.NumLayers * (12 * cfg.Channels * cfg.Channels + 13 * cfg.Channels)
      [ZMOD 2 ^ 64] := (wrap64_modEq _).trans (hPS.add hL)
  unfold totalElementCount
  dsimp only
  rw [add64_eq_wrap]
  exact wrap64_congr (hPSL.add h2)

theorem layerTensors_eq_exact (cfg : GPT2Config) (hC : 0 ≤ cfg.Channels)
    (hX : 12 * cfg.Channels * cfg.Channels + 13 * cfg.Channels < 2 ^ 63) :
    layerTensors cfg = exactLayerTensors cfg := by
  have hcc : 0 ≤ cfg.Channels * cfg.Channels := mul_nonneg hC hC
  have h3 : mul64 3 cfg.Channels = 3 * cfg.Channels :=
    mul64_of_fit _ _ (by linarith) (by linarith)
  have h4 : mul64 4 cfg.Channels = 4 * cfg.Channels :=
    mul64_of_fit _ _ (by linarith) (by linarith)
  have h4r : mul64 cfg.Channels 4 = cfg.Channels * 4 :=
    mul64_of_fit _ _ (by linarith) (by linarith)
  have hc : mul64 cfg.Channels cfg.Channels = cfg.Channels * cfg.Channels :=
    mul64_of_fit _ _ hcc (by linarith)
  have h3c : mul64 (3 * cfg.Channels) cfg.Channels = 3 * cfg.Channels * cfg.Channels :=
    mul64_of_fit _ _ (by nlinarith) (by nlinarith)
  have h4c : mul64 (4 * cfg.Channels) cfg.Channels = 4 * cfg.Channels * cfg.Channels :=
    mul64_of_fit _ _ (by nlinarith) (by nlinarith)
  have h4rc : mul64 (cfg.Channels * 4) cfg.Channels = 4 * cfg.Channels * cfg.Channels := by
    rw [mul_comm cfg.Channels 4]
    exact h4c
  simp only [layerTensors, exactLayerTensors, h3, h4, h4r, hc, h3c, h4c, h4rc]

theorem layersEmissions_eq_exact (cfg : GPT2Config) (n : Nat)
    (h : layerTensors cfg = exactLayerTensors cfg) :
    layersEmissions cfg n = exactLayersEmissions cfg n := by
  induction n with
  | zero => rfl
  | succ n ih =>
    rw [layersEmissions, exactLayersEmissions, ih, layerEmissions, h]

/-- When the closed form fits in `int64`, every size the code records is the
size in unbounded integers. -/
theorem emissions_eq_exact (cfg : GPT2Config) (hP : 0 ≤ cfg.PaddedVocabSize)
    (hS : 0 ≤ cfg.MaxSeqLen) (hC : 0 ≤ cfg.Channels) (hfit : exactTotal cfg < 2 ^ 63) :
    emissions cfg = exactEmissions cfg := by
  have hcc : 0 ≤ cfg.Channels * cfg.Channels := mul_nonneg hC hC
  have hX : 0 ≤ 12 * cfg.Channels * cfg.Channels + 13 * cfg.Channels := by nlinarith
  have hn : (0 : Int) ≤ (cfg.NumLayers.toNat : Int) := Int.ofNat_nonneg _
  have hnX : 0 ≤ (cfg.NumLayers.toNat : Int)
      * (12 * cfg.Channels * cfg.Channels + 13 * cfg.Channels) := mul_nonneg hn hX
  have hPC : 0 ≤ cfg.PaddedVocabSize * cfg.Channels := mul_nonneg hP hC
  have hSC : 0 ≤ cfg.MaxSeqLen * cfg.Channels := mul_nonneg hS hC
  unfold exactTotal at hfit
  have hwte : mul64 cfg.PaddedVocabSize cfg.Channels = cfg.PaddedVocabSize * cfg.Channels :=
    mul64_of_fit _ _ hPC (by linarith)
  have hwpe : mul64 cfg.MaxSeqLen cfg.Channels = cfg.MaxSeqLen * cfg.Channels :=
    mul64_of_fit _ _ hSC (by linarith)
  have hlayers : layersEmissions cfg cfg.NumLayers.toNat
      = exactLayersEmissions cfg cfg.NumLayers.toNat := by
    rcases Nat.eq_zero_or_pos cfg.NumLayers.toNat with h0 | hpos
    · rw [h0]
      rfl
    · have h1 : (1 : Int) ≤ (cfg.NumLayers.toNat : Int) := by exact_mod_cast hpos
      have hle : 12 * cfg.Channels * cfg.Channels + 13 * cfg.Channels
          ≤ (cfg.NumLayers.toNat : Int)
              * (12 * cfg.Channels * cfg.Channels + 13 * cfg.Channels) := by
        nlinarith
      exact layersEmissions_eq_exact cfg _ (layerTensors_eq_exact cfg hC (by linarith))
  unfold emissions exactEmissions
  rw [hwte, hwpe, hlayers]

theorem offsetsFrom_eq_exact (es : List (String × Int)) :
    ∀ start, 0 ≤ start → (∀ e ∈ es, 0 ≤ e.2) → start + (es.map Prod.snd).sum < 2 ^ 63 →
      offsetsFrom start es = exactOffsetsFrom start es := by
  induction es with
  | nil => intro start _ _ _; rfl
  | cons e rest ih =>
    intro start h0 hnn hfit
    obtain ⟨n, s⟩ := e
    have hs : 0 ≤ s := hnn (n, s) (List.mem_cons_self _ _)
    have hrest : ∀ x ∈ rest, 0 ≤ x.2 := fun x hx => hnn x (List.mem_cons_of_mem _ hx)
    have hsum := sum_nonneg_of rest hrest
    simp only [List.map_cons, List.sum_cons] at hfit
    have hadd : add64 start s = start + s := add64_of_fit _ _ h0 hs (by omega)
    simp only [offsetsFrom, exactOffsetsFrom, hadd]
    rw [ih (start + s) (by omega) hrest (by omega)]

theorem exactLayerTensors_pos (cfg : GPT2Config) (hC : 0 < cfg.Channels) :
    ∀ e ∈ exactLayerTensors cfg, 0 < e.2 := by
  have hcc : 0 < cfg.Channels * cfg.Channels := mul_pos hC hC
  intro e he
  simp only [exactLayerTensors, List.mem_cons, List.mem_singleton, List.not_mem_nil,
    or_false] at he
  rcases he with h | h | h | h | h | h | h | h | h | h | h | h <;> subst h <;>
    simp only <;> nlinarith

theorem exactLayersEmissions_pos (cfg : GPT2Config) (hC : 0 < cfg.Channels) (n : Nat) :
    ∀ e ∈ exactLayersEmissions cfg n, 0 < e.2 := by
  induction n with
  | zero => intro e he; simp [exactLayersEmissions] at he
  | succ n ih =>
    intro e he
    rw [exactLayersEmissions] at he
    rcases List.mem_append.mp he with he | he
    · exact ih e he
    · obtain ⟨p, hp, hpe⟩ := List.mem_map.mp he
      subst hpe
      exact exactLayerTensors_pos cfg hC p hp

theorem exactEmissions_pos (cfg : GPT2Config) (hP : 0 < cfg.PaddedVocabSize)
    (hS : 0 < cfg.MaxSeqLen) (hC : 0 < cfg.Channels) : ∀ e ∈ exactEmissions cfg, 0 < e.2 := by
  intro e he
  simp only [exactEmissions, List.mem_append, List.mem_cons, List.mem_singleton,
    List.not_mem_nil, or_false] at he
  rcases he with (((h | h) | h) | (h | h))
  · subst h; exact mul_pos hP hC
  · subst h; exact mul_pos hS hC
  · exact exactLayersEmissions_pos cfg hC _ e h
  · subst h; exact hC
  · subst h; exact hC

theorem mapIndex_mem (m : GoMap) (k : String) (h : k ∈ mapKeys m) : (k, mapIndex m k) ∈ m := by
  induction m with
  | nil => simp [mapKeys] at h
  | cons e rest ih =>
    obtain ⟨k', v⟩ := e
    by_cases hk : k' = k
    · subst hk
      rw [mapIndex_cons_self]
      exact List.mem_cons_self _ _
    · rw [mapIndex_cons_ne _ _ _ _ hk]
      simp only [mapKeys, List.map_cons, List.mem_cons] at h
      rcases h with h | h
      · exact absurd h.symm hk
      · exact List.mem_cons_of_mem _ (ih h)

theorem oneFile_model (content : List Byte) :
    oneFile content "model.bin" = Except.ok content := rfl

set_option maxRecDepth 100000 in
/-- The loader on `hugeHeader` followed by any number of values: `make`
panics before anything is read. -/
theorem hugeCheckpoint_panics (n : Nat) :
    4 * 256 ≤ (hugeCheckpoint n).length
      ∧ headerOf (hugeCheckpoint n) = hugeHeader
      ∧ (dataOf (hugeCheckpoint n)).length = 4 * n
      ∧ NewGPT2FromCheckpoint linuxMaxAlloc (oneFile (hugeCheckpoint n)) "model.bin"
          = Outcome.panic "makeslice: len out of range" := by
  have hlen : hugeHeader.length = 256 := by decide
  have hrange : ∀ v ∈ hugeHeader, -2 ^ 31 ≤ v ∧ v < 2 ^ 31 := by decide
  have hvalid : validHeader hugeHeader := by decide
  obtain ⟨hc, hh, hd⟩ := writeCheckpoint_parts hugeHeader (List.replicate n 0) hlen hrange
  unfold hugeCheckpoint
  refine ⟨hc, hh, ?_, ?_⟩
  · rw [hd, length_encodeFloat32s, List.length_replicate]
  · rw [newGPT2FromCheckpoint_of_file linuxMaxAlloc _ _ _ (oneFile_model _),
      loadCheckpoint_of_complete _ _ hc, hh, loadAfterHeader_of_valid _ _ _ hvalid]
    exact readParameters_of_beyond _ _ _ (by decide)

/-! ## The claims -/

set_option maxRecDepth 100000

/-- C1: for the configuration returned by `NewDefaultConfig` (max_seq_len 1024,
vocab_size 50257, padded_vocab_size 50304, num_layers 12, num_heads 12,
channels 768), `calculateParameterSizes` sets `NumParameters` to exactly
124475904, on the fresh model of the loader and on any other model with that
configuration; no file is involved. -/
theorem default_config_total :
    NewDefaultConfig
        = { MaxSeqLen := 1024, VocabSize := 50257, PaddedVocabSize := 50304, NumLayers := 12
            NumHeads := 12, Channels := 768 }
      ∧ (calculateParameterSizes (newModel NewDefaultConfig)).NumParameters = 124475904
      ∧ ∀ m : GPT2,
          (calculateParameterSizes { m with Config := NewDefaultConfig }).NumParameters
            = 124475904 := by
  refine ⟨rfl, ?_, ?_⟩
  · rw [numParameters_any_model]
    decide
  · intro m
    rw [numParameters_any_model]
    change wrap64 (exactTotal NewDefaultConfig) = 124475904
    decide

/-- C2, as stated, fails: `wrapConfig` passes `Validate`, and in its layout
the regions of the distinct keys `wte` and `ln_f.bias` both contain the buffer
index 0, because the running offset wraps around in 64-bit arithmetic. -/
theorem regions_overlap_after_wrap :
    wrapConfig.Validate.2 = none
      ∧ "wte" ∈ mapKeys (layoutOf wrapConfig).ParamOffsets
      ∧ "ln_f.bias" ∈ mapKeys (layoutOf wrapConfig).ParamOffsets
      ∧ "wte" ≠ "ln_f.bias"
      ∧ (mapIndex (layoutOf wrapConfig).ParamOffsets "wte" ≤ 0
          ∧ 0 < mapIndex (layoutOf wrapConfig).ParamOffsets "wte"
                + mapIndex (layoutOf wrapConfig).ParamSizes "wte"
          ∧ mapIndex (layoutOf wrapConfig).ParamOffsets "ln_f.bias" ≤ 0
          ∧ 0 < mapIndex (layoutOf wrapConfig).ParamOffsets "ln_f.bias"
                + mapIndex (layoutOf wrapConfig).ParamSizes "ln_f.bias") := by
  decide

/-- C2, amended: for every configuration that passes `Validate` and whose
layout total `padded_vocab_size*C + max_seq_len*C + num_layers*(12*C*C + 13*C)
+ 2*C` is below `2^63`, no two named regions overlap: for distinct keys `n1`
and `n2` of `ParamOffsets`, no index lies in both half-open intervals
`[ParamOffsets[n], ParamOffsets[n] + ParamSizes[n])`. -/
theorem layout_regions_disjoint (cfg : GPT2Config) (hv : cfg.Validate.2 = none)
    (hfit : exactTotal cfg < 2 ^ 63) (n1 n2 : String)
    (h1 : n1 ∈ mapKeys (layoutOf cfg).ParamOffsets)
    (h2 : n2 ∈ mapKeys (layoutOf cfg).ParamOffsets) (hne : n1 ≠ n2) (x : Int) :
    ¬ (mapIndex (layoutOf cfg).ParamOffsets n1 ≤ x
        ∧ x < mapIndex (layoutOf cfg).ParamOffsets n1 + mapIndex (layoutOf cfg).ParamSizes n1
        ∧ mapIndex (layoutOf cfg).ParamOffsets n2 ≤ x
        ∧ x < mapIndex (layoutOf cfg).ParamOffsets n2
              + mapIndex (layoutOf cfg).ParamSizes n2) := by
  obtain ⟨hS, _, hP, _, _, hC⟩ := (validate_none_iff cfg).mp hv
  obtain ⟨hnn, hsum⟩ := emissions_of_fit cfg (le_of_lt hP) (le_of_lt hS) (le_of_lt hC) hfit
  rw [(layoutOf_fields cfg).1, mapKeys_offsetsFrom] at h1 h2
  rw [(layoutOf_fields cfg).1, (layoutOf_fields cfg).2.1]
  have h := regions_apart_of_fit (emissions cfg) 0 (le_refl 0) hnn (by rw [hsum]; omega)
    (nodup_constructionOrder cfg) n1 h1 n2 h2 hne
  omega

/-- Witness: `smallConfig`, the keys `wte` and
`wpe`, the index 8. -/
theorem layout_regions_disjoint_witness :
    smallConfig.Validate.2 = none ∧ exactTotal smallConfig < 2 ^ 63
      ∧ "wte" ∈ mapKeys (layoutOf smallConfig).ParamOffsets
      ∧ "wpe" ∈ mapKeys (layoutOf smallConfig).ParamOffsets
      ∧ "wte" ≠ "wpe"
      ∧ ¬ (mapIndex (layoutOf smallConfig).ParamOffsets "wte" ≤ 8
          ∧ 8 < mapIndex (layoutOf smallConfig).ParamOffsets "wte"
                + mapIndex (layoutOf smallConfig).ParamSizes "wte"
          ∧ mapIndex (layoutOf smallConfig).ParamOffsets "wpe" ≤ 8
          ∧ 8 < mapIndex (layoutOf smallConfig).ParamOffsets "wpe"
                + mapIndex (layoutOf smallConfig).ParamSizes "wpe") :=
  ⟨by decide, by decide, by decide, by decide, by decide,
    layout_regions_disjoint smallConfig (by decide) (by decide) "wte" "wpe" (by decide)
      (by decide) (by decide) 8⟩

/-- C3: for every configuration that passes `Validate`, the `NumParameters`
computed by `calculateParameterSizes` equals the sum of the sizes held by the
`ParamSizes` map it built, as the loop `totalParams += size` computes it, in
whatever order the map is visited; when the layout total is below `2^63` this
is also the sum in unbounded integers. -/
theorem total_equals_sum_of_sizes (cfg : GPT2Config) (hv : cfg.Validate.2 = none) :
    (∀ entries : List (String × Int), entries.Perm (layoutOf cfg).ParamSizes →
        totalParamsOver entries = (layoutOf cfg).NumParameters)
      ∧ (exactTotal cfg < 2 ^ 63 →
          (((layoutOf cfg).ParamSizes).map Prod.snd).sum = (layoutOf cfg).NumParameters) := by
  constructor
  · intro entries hperm
    rw [totalParamsOver_eq, (hperm.map Prod.snd).sum_eq, (layoutOf_fields cfg).2.2.1,
      (layoutOf_fields cfg).2.1, offsetAfter_zero]
  · intro hfit
    obtain ⟨hS, _, hP, _, _, hC⟩ := (validate_none_iff cfg).mp hv
    obtain ⟨hnn, hsum⟩ := emissions_of_fit cfg (le_of_lt hP) (le_of_lt hS) (le_of_lt hC) hfit
    rw [(layoutOf_fields cfg).2.2.1, (layoutOf_fields cfg).2.1,
      offsetAfter_of_fit _ 0 (le_refl 0) hnn (by rw [hsum]; omega), zero_add]

/-- Witness: `smallConfig`, the map visited in
reverse order. -/
theorem total_equals_sum_of_sizes_witness :
    smallConfig.Validate.2 = none
      ∧ ((layoutOf smallConfig).ParamSizes.reverse).Perm (layoutOf smallConfig).ParamSizes
      ∧ totalParamsOver (layoutOf smallConfig).ParamSizes.reverse
          = (layoutOf smallConfig).NumParameters
      ∧ exactTotal smallConfig < 2 ^ 63
      ∧ (((layoutOf smallConfig).ParamSizes).map Prod.snd).sum
          = (layoutOf smallConfig).NumParameters :=
  ⟨by decide, List.reverse_perm _,
    (total_equals_sum_of_sizes smallConfig (by decide)).1 _ (List.reverse_perm _),
    by decide, (total_equals_sum_of_sizes smallConfig (by decide)).2 (by decide)⟩

/-- C4: for every configuration, the regions emitted by
`calculateParameterSizes`, in construction order (`wte`, `wpe`, the twelve
regions of layer 0, of layer 1, ..., of the last layer, `ln_f.weight`,
`ln_f.bias`), are contiguous: the first region has offset 0, the offset of each
later region is the offset of the previous region plus its size, and the
offset of the last region plus its size is `NumParameters`. The sums are those
of the code, on Go `int`. -/
theorem regions_contiguous (cfg : GPT2Config) :
    (regionsOf (layoutOf cfg)).map (fun r => r.1)
        = ["wte", "wpe"]
          ++ (List.range cfg.NumLayers.toNat).flatMap
              (fun i => layerSuffixes.map (fun s => layerName i ++ s))
          ++ ["ln_f.weight", "ln_f.bias"]
      ∧ (regionsOf (layoutOf cfg)).head?.map (fun r => r.2.1) = some 0
      ∧ List.Chain' (fun a b : Region => b.2.1 = add64 a.2.1 a.2.2) (regionsOf (layoutOf cfg))
      ∧ (regionsOf (layoutOf cfg)).getLast?.map (fun r => add64 r.2.1 r.2.2)
          = some (layoutOf cfg).NumParameters := by
  rw [regionsOf_layoutOf, (layoutOf_fields cfg).2.2.1, ← constructionOrder_eq]
  exact ⟨regionsFrom_names _ _, regionsFrom_head _ _ (emissions_ne_nil cfg),
    regionsFrom_chain _ _, regionsFrom_last _ _ (emissions_ne_nil cfg)⟩

/-- C5: for every configuration, `calculateParameterSizes` records the size
`padded_vocab_size*C` for `wte`, `max_seq_len*C` for `wpe`, `C` for each of
`ln_f.weight` and `ln_f.bias`, and for every layer `i` with `0 <= i <
num_layers` the twelve entries it adds for that layer are, in emission order,
of the sizes `C, C, 3*C*C, 3*C, C*C, C, C, C, 4*C*C, 4*C, 4*C*C, C`, where
`C = channels` and a product is the Go `int` value of that product. -/
theorem sizes_recorded (cfg : GPT2Config) :
    mapIndex (layoutOf cfg).ParamSizes "wte" = wrap64 (cfg.PaddedVocabSize * cfg.Channels)
      ∧ mapIndex (layoutOf cfg).ParamSizes "wpe" = wrap64 (cfg.MaxSeqLen * cfg.Channels)
      ∧ mapIndex (layoutOf cfg).ParamSizes "ln_f.weight" = cfg.Channels
      ∧ mapIndex (layoutOf cfg).ParamSizes "ln_f.bias" = cfg.Channels
      ∧ ∀ i : Nat, (i : Int) < cfg.NumLayers →
          (((layoutOf cfg).ParamSizes.drop (2 + 12 * i)).take 12)
            = [ (layerName i ++ "_ln1.weight", cfg.Channels)
              , (layerName i ++ "_ln1.bias", cfg.Channels)
              , (layerName i ++ ".attn.qkv.weight", wrap64 (3 * cfg.Channels * cfg.Channels))
              , (layerName i ++ ".attn.qkv.bias", wrap64 (3 * cfg.Channels))
              , (layerName i ++ ".attn.proj.weight", wrap64 (cfg.Channels * cfg.Channels))
              , (layerName i ++ ".attn.proj.bias", cfg.Channels)
              , (layerName i ++ ".ln_2.weight", cfg.Channels)
              , (layerName i ++ ".ln_2.bias", cfg.Channels)
              , (layerName i ++ ".mlp.fc.weight", wrap64 (4 * cfg.Channels * cfg.Channels))
              , (layerName i ++ ".mlp.fc.bias", wrap64 (4 * cfg.Channels))
              , (layerName i ++ ".mlp.proj.weight", wrap64 (4 * cfg.Channels * cfg.Channels))
              , (layerName i ++ ".mlp.proj.bias", cfg.Channels) ] := by
  refine ⟨(wte_region cfg).2, wpe_size cfg, lnfw_size cfg, (lnfb_region cfg).2, ?_⟩
  intro i hi
  rw [(layoutOf_fields cfg).2.1, emissions_slice cfg i (by omega)]
  exact layerEmissions_wrap cfg i

/-- Witness: layer 0 of `smallConfig`. -/
theorem sizes_recorded_witness :
    ((0 : Nat) : Int) < smallConfig.NumLayers
      ∧ (((layoutOf smallConfig).ParamSizes.drop (2 + 12 * 0)).take 12)
          = [ (layerName 0 ++ "_ln1.weight", smallConfig.Channels)
            , (layerName 0 ++ "_ln1.bias", smallConfig.Channels)
            , (layerName 0 ++ ".attn.qkv.weight",
                wrap64 (3 * smallConfig.Channels * smallConfig.Channels))
            , (layerName 0 ++ ".attn.qkv.bias", wrap64 (3 * smallConfig.Channels))
            , (layerName 0 ++ ".attn.proj.weight",
                wrap64 (smallConfig.Channels * smallConfig.Channels))
            , (layerName 0 ++ ".attn.proj.bias", smallConfig.Channels)
            , (layerName 0 ++ ".ln_2.weight", smallConfig.Channels)
            , (layerName 0 ++ ".ln_2.bias", smallConfig.Channels)
            , (layerName 0 ++ ".mlp.fc.weight",
                wrap64 (4 * smallConfig.Channels * smallConfig.Channels))
            , (layerName 0 ++ ".mlp.fc.bias", wrap64 (4 * smallConfig.Channels))
            , (layerName 0 ++ ".mlp.proj.weight",
                wrap64 (4 * smallConfig.Channels * smallConfig.Channels))
            , (layerName 0 ++ ".mlp.proj.bias", smallConfig.Channels) ] :=
  ⟨by decide, (sizes_recorded smallConfig).2.2.2.2 0 (by decide)⟩

/-- C6, at a configuration with one layer: the keys the code writes. The keys
of the second layer norm are `Layer 0.ln_2.weight` and `Layer 0.ln_2.bias`,
which end with none of the twelve tensor names, and the keys of the first
layer norm join the layer and the tensor name with `_` where the other ten
keys use `.`. -/
theorem keys_of_one_layer :
    mapKeys (layoutOf smallConfig).ParamOffsets
        = [ "wte", "wpe", "Layer 0_ln1.weight", "Layer 0_ln1.bias", "Layer 0.attn.qkv.weight"
          , "Layer 0.attn.qkv.bias", "Layer 0.attn.proj.weight", "Layer 0.attn.proj.bias"
          , "Layer 0.ln_2.weight", "Layer 0.ln_2.bias", "Layer 0.mlp.fc.weight"
          , "Layer 0.mlp.fc.bias", "Layer 0.mlp.proj.weight", "Layer 0.mlp.proj.bias"
          , "ln_f.weight", "ln_f.bias" ]
      ∧ (∀ name ∈ specTensorNames, endsWith "Layer 0.ln_2.weight" name = false)
      ∧ (∀ name ∈ specTensorNames, endsWith "Layer 0.ln_2.bias" name = false)
      ∧ "Layer 0_ln1.weight" = layerName 0 ++ "_" ++ "ln1.weight"
      ∧ "Layer 0.attn.qkv.weight" = layerName 0 ++ "." ++ "attn.qkv.weight" := by
  decide

/-- C7: for every configuration with `num_layers >= 0`, the keys written by
`calculateParameterSizes` are pairwise distinct, `ParamOffsets` and
`ParamSizes` each hold exactly `12*num_layers + 4` entries, one for each of
the `12*num_layers + 4` emitted regions, and the two maps have the same key
set. -/
theorem keys_distinct_and_counted (cfg : GPT2Config) (hL : 0 ≤ cfg.NumLayers) :
    (mapKeys (layoutOf cfg).ParamOffsets).Nodup
      ∧ (mapKeys (layoutOf cfg).ParamSizes).Nodup
      ∧ ((layoutOf cfg).ParamOffsets.length : Int) = 12 * cfg.NumLayers + 4
      ∧ ((layoutOf cfg).ParamSizes.length : Int) = 12 * cfg.NumLayers + 4
      ∧ ((emissions cfg).length : Int) = 12 * cfg.NumLayers + 4
      ∧ mapKeys (layoutOf cfg).ParamOffsets = mapKeys (layoutOf cfg).ParamSizes := by
  have hk := mapKeys_layoutOf cfg
  have hlen : ((emissions cfg).length : Int) = 12 * cfg.NumLayers + 4 := by
    rw [length_emissions]
    push_cast
    rw [Int.toNat_of_nonneg hL]
  refine ⟨?_, ?_, ?_, ?_, hlen, ?_⟩
  · rw [hk.1]; exact nodup_constructionOrder cfg
  · rw [hk.2]; exact nodup_constructionOrder cfg
  · rw [(layoutOf_fields cfg).1, length_offsetsFrom]; exact hlen
  · rw [(layoutOf_fields cfg).2.1]; exact hlen
  · rw [hk.1, hk.2]

/-- Witness: `smallConfig`. -/
theorem keys_distinct_and_counted_witness :
    0 ≤ smallConfig.NumLayers
      ∧ (mapKeys (layoutOf smallConfig).ParamOffsets).Nodup
      ∧ (mapKeys (layoutOf smallConfig).ParamSizes).Nodup
      ∧ ((layoutOf smallConfig).ParamOffsets.length : Int) = 12 * smallConfig.NumLayers + 4
      ∧ ((layoutOf smallConfig).ParamSizes.length : Int) = 12 * smallConfig.NumLayers + 4
      ∧ ((emissions smallConfig).length : Int) = 12 * smallConfig.NumLayers + 4
      ∧ mapKeys (layoutOf smallConfig).ParamOffsets
          = mapKeys (layoutOf smallConfig).ParamSizes :=
  ⟨by decide, keys_distinct_and_counted smallConfig (by decide)⟩

/-- C8: for every `GPT2Config`, `Validate` returns an error if and only if at
least one of the six fields `MaxSeqLen`, `VocabSize`, `PaddedVocabSize`,
`NumLayers`, `NumHeads`, `Channels` is `<= 0`; it returns `nil` exactly when
all six are strictly positive; and it leaves the configuration unchanged. -/
theorem validate_spec (c : GPT2Config) :
    c.Validate.1 = c
      ∧ ((∃ e, c.Validate.2 = some e) ↔
          (c.MaxSeqLen ≤ 0 ∨ c.VocabSize ≤ 0 ∨ c.PaddedVocabSize ≤ 0 ∨ c.NumLayers ≤ 0
            ∨ c.NumHeads ≤ 0 ∨ c.Channels ≤ 0))
      ∧ (c.Validate.2 = none ↔
          (0 < c.MaxSeqLen ∧ 0 < c.VocabSize ∧ 0 < c.PaddedVocabSize ∧ 0 < c.NumLayers
            ∧ 0 < c.NumHeads ∧ 0 < c.Channels)) := by
  have hnone := validate_none_iff c
  refine ⟨?_, ?_, ?_⟩
  · unfold GPT2Config.Validate
    split_ifs <;> rfl
  · rw [← Option.ne_none_iff_exists', Ne, hnone]
    constructor
    · intro h
      by_contra hcon
      exact h ⟨by omega, by omega, by omega, by omega, by omega, by omega⟩
    · rintro h ⟨h1, h2, h3, h4, h5, h6⟩
      omega
  · exact hnone

/-- C9, as stated, fails: a key of the layout does not always yield a slice.
For `strayModel` the region of `wte` ends beyond the buffer and the call
panics; the same happens for the model loaded from `zeroTotalFile`, whose
layout total wrapped around to 0 while its regions did not. -/
theorem getParameter_can_panic :
    ("wte" ∈ mapKeys strayModel.ParamOffsets
        ∧ GetParameter strayModel "wte" = Outcome.panic "slice bounds out of range")
      ∧ (NewGPT2FromCheckpoint linuxMaxAlloc (oneFile zeroTotalFile) "model.bin" = Outcome.ok zeroTotalModel
        ∧ "wpe" ∈ mapKeys zeroTotalModel.ParamOffsets
        ∧ GetParameter zeroTotalModel "wpe" = Outcome.panic "slice bounds out of range") := by
  decide

/-- C9, amended: for every model and every name, `GetParameter` returns an
error (and no slice) if and only if the name is not a key of `ParamOffsets`;
when the name is a key and its region lies within the buffer (`0 <= offset`,
`0 <= size`, `offset + size <= len(Parameters)`, the length being an `int`), it
returns, without error, the `ParamSizes[name]` elements of `Parameters` that
start at index `ParamOffsets[name]`; and on a layout built by
`calculateParameterSizes`, `GetParameter("nonexistent")` fails. -/
theorem getParameter_spec (m : GPT2) (name : String) :
    ((∃ e, GetParameter m name = Outcome.error e) ↔ name ∉ mapKeys m.ParamOffsets)
      ∧ (name ∈ mapKeys m.ParamOffsets →
          0 ≤ mapIndex m.ParamOffsets name →
          0 ≤ mapIndex m.ParamSizes name →
          mapIndex m.ParamOffsets name + mapIndex m.ParamSizes name
            ≤ (m.Parameters.length : Int) →
          (m.Parameters.length : Int) < 2 ^ 63 →
          GetParameter m name = Outcome.ok
              ((m.Parameters.drop (mapIndex m.ParamOffsets name).toNat).take
                (mapIndex m.ParamSizes name).toNat)
            ∧ (((m.Parameters.drop (mapIndex m.ParamOffsets name).toNat).take
                (mapIndex m.ParamSizes name).toNat).length : Int)
                = mapIndex m.ParamSizes name)
      ∧ (∀ cfg : GPT2Config, m.ParamOffsets = (layoutOf cfg).ParamOffsets →
          GetParameter m "nonexistent"
            = Outcome.error "parameter nonexistent not found") := by
  refine ⟨getParameter_error_iff m name, ?_, ?_⟩
  · intro hk hoff hsize hend hlen
    refine ⟨getParameter_of_bounds m name hk hoff hsize hend hlen, ?_⟩
    rw [List.length_take, List.length_drop]
    omega
  · intro cfg hcfg
    have h := getParameter_error_of_not_mem m "nonexistent"
      (by rw [hcfg, (mapKeys_layoutOf cfg).1]; exact nonexistent_not_key cfg)
    rw [h]
    decide

/-- Witness: the key `wte` of `tidyModel`. -/
theorem getParameter_spec_witness :
    "wte" ∈ mapKeys tidyModel.ParamOffsets
      ∧ 0 ≤ mapIndex tidyModel.ParamOffsets "wte"
      ∧ 0 ≤ mapIndex tidyModel.ParamSizes "wte"
      ∧ mapIndex tidyModel.ParamOffsets "wte" + mapIndex tidyModel.ParamSizes "wte"
          ≤ (tidyModel.Parameters.length : Int)
      ∧ (tidyModel.Parameters.length : Int) < 2 ^ 63
      ∧ (GetParameter tidyModel "wte" = Outcome.ok
            ((tidyModel.Parameters.drop (mapIndex tidyModel.ParamOffsets "wte").toNat).take
              (mapIndex tidyModel.ParamSizes "wte").toNat)
          ∧ (((tidyModel.Parameters.drop (mapIndex tidyModel.ParamOffsets "wte").toNat).take
              (mapIndex tidyModel.ParamSizes "wte").toNat).length : Int)
              = mapIndex tidyModel.ParamSizes "wte") :=
  ⟨by decide, by decide, by decide, by decide, by decide,
    (getParameter_spec tidyModel "wte").2.1 (by decide) (by decide) (by decide) (by decide)
      (by decide)⟩

/-- C10, as stated, fails: `NewGPT2FromCheckpoint` loads the 1024-byte file
`zeroTotalFile` successfully, with `NumParameters = 0` and an empty buffer,
because the layout total wraps around to 0; on the returned model
`GetParameter("wte")` and `GetParameter("ln_f.bias")` panic. -/
theorem loaded_model_can_panic :
    NewGPT2FromCheckpoint linuxMaxAlloc (oneFile zeroTotalFile) "model.bin" = Outcome.ok zeroTotalModel
      ∧ zeroTotalModel.Config.Validate.2 = none
      ∧ zeroTotalModel.NumParameters = 0
      ∧ zeroTotalModel.Parameters = []
      ∧ GetParameter zeroTotalModel "wte" = Outcome.panic "slice bounds out of range"
      ∧ GetParameter zeroTotalModel "ln_f.bias" = Outcome.panic "slice bounds out of range" := by
  decide

/-- C10, amended: for every model produced by a successful load whose layout
total `padded_vocab_size*C + max_seq_len*C + num_layers*(12*C*C + 13*C) + 2*C`
is below `2^63`, `GetParameter("wte")` returns exactly
`padded_vocab_size*channels` elements starting at buffer index 0, and
`GetParameter("ln_f.bias")` returns exactly `channels` elements, the last
`channels` elements of the buffer: its offset plus `channels` equals
`NumParameters`, the length of the buffer. -/
theorem loaded_first_and_last_region (maxAlloc : Nat)
    (fs : String → Except String (List Byte)) (path : String)
    (m : GPT2) (hload : NewGPT2FromCheckpoint maxAlloc fs path = Outcome.ok m)
    (hfit : exactTotal m.Config < 2 ^ 63) :
    GetParameter m "wte" = Outcome.ok
        (m.Parameters.take (m.Config.PaddedVocabSize * m.Config.Channels).toNat)
      ∧ ((m.Parameters.take (m.Config.PaddedVocabSize * m.Config.Channels).toNat).length : Int)
          = m.Config.PaddedVocabSize * m.Config.Channels
      ∧ GetParameter m "ln_f.bias" = Outcome.ok
          (m.Parameters.drop (m.Parameters.length - m.Config.Channels.toNat))
      ∧ ((m.Parameters.drop (m.Parameters.length - m.Config.Channels.toNat)).length : Int)
          = m.Config.Channels
      ∧ mapIndex m.ParamOffsets "ln_f.bias" + m.Config.Channels = m.NumParameters
      ∧ (m.Parameters.length : Int) = m.NumParameters := by
  obtain ⟨file, _, hfile⟩ := newGPT2FromCheckpoint_ok maxAlloc fs path m hload
  obtain ⟨hval, hoffs, hsizes, hnum, hnn, hlen⟩ := loadCheckpoint_ok maxAlloc file m hfile
  obtain ⟨hS, _, hP, hL, _, hC⟩ := (validate_none_iff m.Config).mp hval
  obtain ⟨hpos, hsum⟩ := emissions_of_fit m.Config (le_of_lt hP) (le_of_lt hS) (le_of_lt hC) hfit
  have hPC : 0 ≤ m.Config.PaddedVocabSize * m.Config.Channels :=
    mul_nonneg (le_of_lt hP) (le_of_lt hC)
  have hSC : 0 ≤ m.Config.MaxSeqLen * m.Config.Channels :=
    mul_nonneg (le_of_lt hS) (le_of_lt hC)
  have hX : 0 ≤ (m.Config.NumLayers.toNat : Int)
      * (12 * m.Config.Channels * m.Config.Channels + 13 * m.Config.Channels) := by
    have hcc : 0 ≤ m.Config.Channels * m.Config.Channels :=
      mul_nonneg (le_of_lt hC) (le_of_lt hC)
    exact mul_nonneg (Int.ofNat_nonneg _) (by nlinarith)
  have hT : m.NumParameters = exactTotal m.Config := by
    rw [hnum, (layoutOf_fields m.Config).2.2.1,
      offsetAfter_of_fit _ 0 (le_refl 0) hpos (by rw [hsum]; omega), zero_add, hsum]
  have hTdef : exactTotal m.Config
      = m.Config.PaddedVocabSize * m.Config.Channels + m.Config.MaxSeqLen * m.Config.Channels
        + (m.Config.NumLayers.toNat : Int)
            * (12 * m.Config.Channels * m.Config.Channels + 13 * m.Config.Channels)
        + 2 * m.Config.Channels := rfl
  have hkeys : mapKeys m.ParamOffsets = constructionOrder m.Config := by
    rw [hoffs]; exact (mapKeys_layoutOf m.Config).1
  have hwteK : "wte" ∈ mapKeys m.ParamOffsets := by
    rw [hkeys, mem_constructionOrder]; exact Or.inl rfl
  have hlnK : "ln_f.bias" ∈ mapKeys m.ParamOffsets := by
    rw [hkeys, mem_constructionOrder]; exact Or.inr (Or.inr (Or.inr (Or.inr rfl)))
  have hwteO : mapIndex m.ParamOffsets "wte" = 0 := by
    rw [hoffs]; exact (wte_region m.Config).1
  have hwteS : mapIndex m.ParamSizes "wte" = m.Config.PaddedVocabSize * m.Config.Channels := by
    rw [hsizes, (wte_region m.Config).2]
    exact wrap64_of_range _ (by omega) (by omega)
  have hlnS : mapIndex m.ParamSizes "ln_f.bias" = m.Config.Channels := by
    rw [hsizes]; exact (lnfb_region m.Config).2
  have hlnB := region_bounds_of_fit (emissions m.Config) 0 (le_refl 0) hpos
    (by rw [hsum]; omega) (nodup_constructionOrder m.Config) "ln_f.bias"
    (by rw [hkeys] at hlnK; exact hlnK)
  rw [hsum, zero_add, ← (layoutOf_fields m.Config).1, ← (layoutOf_fields m.Config).2.1,
    ← hoffs, ← hsizes, hlnS] at hlnB
  have hlnO : mapIndex m.ParamOffsets "ln_f.bias" + m.Config.Channels = m.NumParameters := by
    have h := (lnfb_region m.Config).1
    rw [← hoffs, ← hnum, add64_of_fit _ _ hlnB.1 (le_of_lt hC) (by omega)] at h
    exact h
  have hwte := getParameter_of_bounds m "wte" hwteK (by omega) (by omega) (by omega) (by omega)
  have hln := getParameter_of_bounds m "ln_f.bias" hlnK (by omega) (by omega) (by omega)
    (by omega)
  rw [hwteO, hwteS] at hwte
  rw [hlnS] at hln
  have hoffNat : (mapIndex m.ParamOffsets "ln_f.bias").toNat
      = m.Parameters.length - m.Config.Channels.toNat := by
    omega
  rw [hoffNat] at hln
  have htake : (m.Parameters.drop (m.Parameters.length - m.Config.Channels.toNat)).take
      m.Config.Channels.toNat
      = m.Parameters.drop (m.Parameters.length - m.Config.Channels.toNat) := by
    apply List.take_of_length_le
    rw [List.length_drop]
    omega
  rw [htake] at hln
  refine ⟨by simpa using hwte, ?_, hln, ?_, hlnO, hlen⟩
  · rw [List.length_take]
    omega
  · rw [List.length_drop]
    omega

/-- Witness: the model loaded from
`smallFile`. -/
theorem loaded_first_and_last_region_witness :
    NewGPT2FromCheckpoint linuxMaxAlloc (oneFile smallFile) "model.bin" = Outcome.ok smallModel
      ∧ exactTotal smallModel.Config < 2 ^ 63
      ∧ GetParameter smallModel "wte" = Outcome.ok
          (smallModel.Parameters.take
            (smallModel.Config.PaddedVocabSize * smallModel.Config.Channels).toNat)
      ∧ GetParameter smallModel "ln_f.bias" = Outcome.ok
          (smallModel.Parameters.drop
            (smallModel.Parameters.length - smallModel.Config.Channels.toNat)) :=
  have h := loaded_first_and_last_region linuxMaxAlloc (oneFile smallFile) "model.bin" smallModel
    (by decide) (by decide)
  ⟨by decide, by decide, h.1, h.2.2.1⟩

/-- C11, as stated, fails: `hugeHeader` is a 256-entry header with the magic
number, version 3 and strictly positive `header[2..7]`; its layout total is
3377700005740544, a buffer of more than `2^48` bytes. On the file that holds
this header followed by exactly that many values, `make` panics with
`makeslice: len out of range` before anything is read. -/
theorem round_trip_beyond_alloc_limit :
    hugeHeader.length = 256
      ∧ (∀ v ∈ hugeHeader, -2 ^ 31 ≤ v ∧ v < 2 ^ 31)
      ∧ validHeader hugeHeader
      ∧ totalOfHeader hugeHeader = 3377700005740544
      ∧ (dataOf (hugeCheckpoint 3377700005740544)).length = 4 * 3377700005740544
      ∧ NewGPT2FromCheckpoint linuxMaxAlloc (oneFile (hugeCheckpoint 3377700005740544))
          "model.bin" = Outcome.panic "makeslice: len out of range" :=
  ⟨by decide, by decide, by decide, by decide, (hugeCheckpoint_panics _).2.2.1,
    (hugeCheckpoint_panics _).2.2.2⟩

/-- C11, amended: round trip. For every file that consists of a 256-entry
`int32` header with `header[0] = 20240326`, `header[1] = 3` and strictly
positive `header[2..7]`, followed by exactly `total_element_count` `float32`
values (the layout total of those hyperparameters, as
`calculateParameterSizes` computes it), where a buffer of
`total_element_count` values is within the allocation limit of the Go runtime,
`NewGPT2FromCheckpoint` succeeds and returns a model with
`MaxSeqLen = header[2]`, `VocabSize = header[3]`, `NumLayers = header[4]`,
`NumHeads = header[5]`, `Channels = header[6]`, `PaddedVocabSize = header[7]`,
`NumParameters = total_element_count` and `len(Parameters) = NumParameters`;
the buffer holds the written values. -/
theorem checkpoint_round_trip (maxAlloc : Nat)
    (fs : String → Except String (List Byte)) (path : String)
    (header : List Int) (parameters : List Float32)
    (hfile : fs path = Except.ok (writeCheckpoint header parameters))
    (hlen : header.length = 256)
    (hrange : ∀ v ∈ header, -2 ^ 31 ≤ v ∧ v < 2 ^ 31)
    (hfloat : ∀ f ∈ parameters, f < 2 ^ 32)
    (hvalid : validHeader header)
    (hcount : (parameters.length : Int) = totalOfHeader header)
    (hlimit : withinAllocLimit maxAlloc (totalOfHeader header)) :
    ∃ m, NewGPT2FromCheckpoint maxAlloc fs path = Outcome.ok m
      ∧ m.Config.MaxSeqLen = headerAt header 2
      ∧ m.Config.VocabSize = headerAt header 3
      ∧ m.Config.NumLayers = headerAt header 4
      ∧ m.Config.NumHeads = headerAt header 5
      ∧ m.Config.Channels = headerAt header 6
      ∧ m.Config.PaddedVocabSize = headerAt header 7
      ∧ m.NumParameters = totalOfHeader header
      ∧ (m.Parameters.length : Int) = m.NumParameters
      ∧ m.Parameters = parameters := by
  obtain ⟨hcomplete, hhead, hdata⟩ := writeCheckpoint_parts header parameters hlen hrange
  have hN : (layoutOf (configOfHeader header)).NumParameters.toNat = parameters.length := by
    unfold totalOfHeader at hcount
    omega
  have hload : NewGPT2FromCheckpoint maxAlloc fs path = Outcome.ok
      { layoutOf (configOfHeader header) with Parameters := parameters } := by
    rw [newGPT2FromCheckpoint_of_file maxAlloc fs path _ hfile,
      loadCheckpoint_of_complete _ _ hcomplete,
      hhead, hdata, loadAfterHeader_of_valid _ _ _ hvalid,
      readParameters_of_enough _ _ _ hlimit (by rw [length_encodeFloat32s, hN]),
      decodeFloat32s_encode _ hfloat, hN, List.take_length]
  have hcfg := (layoutOf_fields (configOfHeader header)).2.2.2.1
  refine ⟨_, hload, ?_, ?_, ?_, ?_, ?_, ?_, rfl, ?_, rfl⟩
  · exact congrArg GPT2Config.MaxSeqLen hcfg
  · exact congrArg GPT2Config.VocabSize hcfg
  · exact congrArg GPT2Config.NumLayers hcfg
  · exact congrArg GPT2Config.NumHeads hcfg
  · exact congrArg GPT2Config.Channels hcfg
  · exact congrArg GPT2Config.PaddedVocabSize hcfg
  · exact hcount

/-- Witness: the header of `smallConfig` followed by 90 values. -/
theorem checkpoint_round_trip_witness :
    oneFile (writeCheckpoint smallHeader smallParameters) "model.bin"
        = Except.ok (writeCheckpoint smallHeader smallParameters)
      ∧ smallHeader.length = 256
      ∧ (∀ v ∈ smallHeader, -2 ^ 31 ≤ v ∧ v < 2 ^ 31)
      ∧ (∀ f ∈ smallParameters, f < 2 ^ 32)
      ∧ validHeader smallHeader
      ∧ (smallParameters.length : Int) = totalOfHeader smallHeader
      ∧ withinAllocLimit linuxMaxAlloc (totalOfHeader smallHeader)
      ∧ ∃ m, NewGPT2FromCheckpoint linuxMaxAlloc
            (oneFile (writeCheckpoint smallHeader smallParameters)) "model.bin" = Outcome.ok m
          ∧ m.Config.MaxSeqLen = headerAt smallHeader 2
          ∧ m.Config.VocabSize = headerAt smallHeader 3
          ∧ m.Config.NumLayers = headerAt smallHeader 4
          ∧ m.Config.NumHeads = headerAt smallHeader 5
          ∧ m.Config.Channels = headerAt smallHeader 6
          ∧ m.Config.PaddedVocabSize = headerAt smallHeader 7
          ∧ m.NumParameters = totalOfHeader smallHeader
          ∧ (m.Parameters.length : Int) = m.NumParameters
          ∧ m.Parameters = smallParameters :=
  ⟨rfl, by decide, by decide, by decide, by decide, by decide, by decide,
    checkpoint_round_trip linuxMaxAlloc (oneFile (writeCheckpoint smallHeader smallParameters))
      "model.bin" smallHeader smallParameters rfl (by decide) (by decide) (by decide)
      (by decide) (by decide) (by decide)⟩

/-- C12: for every file with a complete 256-entry header whose `header[0]` is
not 20240326, whatever the other header entries and the trailing data are,
`NewGPT2FromCheckpoint` returns no model and fails with the bad-magic error,
which reports the value of `header[0]`. -/
theorem bad_magic_rejected (maxAlloc : Nat)
    (fs : String → Except String (List Byte)) (path : String)
    (file : List Byte) (hfile : fs path = Except.ok file) (hcomplete : 4 * 256 ≤ file.length)
    (hmagic : headerAt (headerOf file) 0 ≠ 20240326) :
    NewGPT2FromCheckpoint maxAlloc fs path = Outcome.error
      ("invalid magic number in checkpoint: " ++ toString (headerAt (headerOf file) 0)) := by
  rw [newGPT2FromCheckpoint_of_file maxAlloc fs path _ hfile, loadCheckpoint_of_complete _ _ hcomplete]
  unfold loadAfterHeader
  rw [if_pos hmagic]

/-- Witness: a header that starts with 20240325. -/
theorem bad_magic_rejected_witness :
    oneFile badMagicFile "model.bin" = Except.ok badMagicFile
      ∧ 4 * 256 ≤ badMagicFile.length
      ∧ headerAt (headerOf badMagicFile) 0 ≠ 20240326
      ∧ NewGPT2FromCheckpoint linuxMaxAlloc (oneFile badMagicFile) "model.bin" = Outcome.error
          ("invalid magic number in checkpoint: "
            ++ toString (headerAt (headerOf badMagicFile) 0)) :=
  ⟨rfl, by decide, by decide,
    bad_magic_rejected linuxMaxAlloc (oneFile badMagicFile) "model.bin" badMagicFile rfl (by decide)
      (by decide)⟩

/-- C13: for every file with a complete 256-entry header whose `header[1]` is
not 3, `NewGPT2FromCheckpoint` returns no model but an error; when `header[0]`
is the magic number 20240326 the error is the unsupported-version error, which
reports the value of `header[1]`, whatever `header[2..255]` and the trailing
data are. -/
theorem bad_version_rejected (maxAlloc : Nat)
    (fs : String → Except String (List Byte)) (path : String)
    (file : List Byte) (hfile : fs path = Except.ok file) (hcomplete : 4 * 256 ≤ file.length)
    (hversion : headerAt (headerOf file) 1 ≠ 3) :
    (∃ e, NewGPT2FromCheckpoint maxAlloc fs path = Outcome.error e)
      ∧ (headerAt (headerOf file) 0 = 20240326 →
          NewGPT2FromCheckpoint maxAlloc fs path = Outcome.error
            ("invalid version in checkpoint: " ++ toString (headerAt (headerOf file) 1)
              ++ ", expected 3")) := by
  rw [newGPT2FromCheckpoint_of_file maxAlloc fs path _ hfile, loadCheckpoint_of_complete _ _ hcomplete]
  unfold loadAfterHeader
  by_cases hmagic : headerAt (headerOf file) 0 = 20240326
  · rw [if_neg (not_not.mpr hmagic), if_pos hversion]
    exact ⟨⟨_, rfl⟩, fun _ => rfl⟩
  · rw [if_pos hmagic]
    exact ⟨⟨_, rfl⟩, fun h => absurd h hmagic⟩

/-- Witness: a header with the magic number and version 4. -/
theorem bad_version_rejected_witness :
    oneFile badVersionFile "model.bin" = Except.ok badVersionFile
      ∧ 4 * 256 ≤ badVersionFile.length
      ∧ headerAt (headerOf badVersionFile) 1 ≠ 3
      ∧ headerAt (headerOf badVersionFile) 0 = 20240326
      ∧ NewGPT2FromCheckpoint linuxMaxAlloc (oneFile badVersionFile) "model.bin" = Outcome.error
          ("invalid version in checkpoint: " ++ toString (headerAt (headerOf badVersionFile) 1)
            ++ ", expected 3") :=
  ⟨rfl, by decide, by decide, by decide,
    (bad_version_rejected linuxMaxAlloc (oneFile badVersionFile) "model.bin" badVersionFile rfl
      (by decide) (by decide)).2 (by decide)⟩

/-- C14, as stated, fails: `hugeFile` is a 1024-byte file with a valid header
and no parameter values, fewer than its layout total 3377700005740544, and
the loader does not fail with an error: `make` panics with
`makeslice: len out of range`. -/
theorem truncated_beyond_alloc_limit :
    4 * 256 ≤ hugeFile.length
      ∧ validHeader (headerOf hugeFile)
      ∧ totalOfHeader (headerOf hugeFile) = 3377700005740544
      ∧ ((dataOf hugeFile).length : Int) < 4 * totalOfHeader (headerOf hugeFile)
      ∧ NewGPT2FromCheckpoint linuxMaxAlloc (oneFile hugeFile) "model.bin"
          = Outcome.panic "makeslice: len out of range" := by
  decide

/-- C14, amended: for every file with a valid header (magic number 20240326,
version 3, strictly positive `header[2..7]`) followed by fewer than
`total_element_count` `float32` values, `total_element_count` being the layout
total as `calculateParameterSizes` computes it, `NewGPT2FromCheckpoint`
returns no model; when a buffer of `total_element_count` values is within the
allocation limit of the Go runtime it fails with the error of the parameter
read, and otherwise `make` panics. -/
theorem truncated_rejected (maxAlloc : Nat)
    (fs : String → Except String (List Byte)) (path : String)
    (file : List Byte) (hfile : fs path = Except.ok file) (hcomplete : 4 * 256 ≤ file.length)
    (hvalid : validHeader (headerOf file))
    (hshort : ((dataOf file).length : Int) < 4 * totalOfHeader (headerOf file)) :
    (∀ m, NewGPT2FromCheckpoint maxAlloc fs path ≠ Outcome.ok m)
      ∧ (withinAllocLimit maxAlloc (totalOfHeader (headerOf file)) →
          NewGPT2FromCheckpoint maxAlloc fs path = Outcome.error ("failed to read parameters: "
            ++ (if (dataOf file).length = 0 then "EOF" else "unexpected EOF")))
      ∧ (¬ withinAllocLimit maxAlloc (totalOfHeader (headerOf file)) →
          NewGPT2FromCheckpoint maxAlloc fs path
            = Outcome.panic "makeslice: len out of range") := by
  rw [newGPT2FromCheckpoint_of_file maxAlloc fs path _ hfile,
    loadCheckpoint_of_complete _ _ hcomplete, loadAfterHeader_of_valid _ _ _ hvalid]
  have hin : withinAllocLimit maxAlloc (totalOfHeader (headerOf file)) →
      readParameters maxAlloc (layoutOf (configOfHeader (headerOf file))) (dataOf file)
        = Outcome.error ("failed to read parameters: "
            ++ (if (dataOf file).length = 0 then "EOF" else "unexpected EOF")) := fun hw =>
    readParameters_of_short _ _ _ hw (by unfold totalOfHeader at hshort; omega)
  have hout : ¬ withinAllocLimit maxAlloc (totalOfHeader (headerOf file)) →
      readParameters maxAlloc (layoutOf (configOfHeader (headerOf file))) (dataOf file)
        = Outcome.panic "makeslice: len out of range" := fun hw =>
    readParameters_of_beyond _ _ _ hw
  refine ⟨?_, hin, hout⟩
  intro m hm
  by_cases hw : withinAllocLimit maxAlloc (totalOfHeader (headerOf file))
  · rw [hin hw] at hm
    exact absurd hm (by simp)
  · rw [hout hw] at hm
    exact absurd hm (by simp)

/-- Witness: `smallFile` without its last byte. -/
theorem truncated_rejected_witness :
    oneFile truncatedFile "model.bin" = Except.ok truncatedFile
      ∧ 4 * 256 ≤ truncatedFile.length
      ∧ validHeader (headerOf truncatedFile)
      ∧ ((dataOf truncatedFile).length : Int) < 4 * totalOfHeader (headerOf truncatedFile)
      ∧ withinAllocLimit linuxMaxAlloc (totalOfHeader (headerOf truncatedFile))
      ∧ NewGPT2FromCheckpoint linuxMaxAlloc (oneFile truncatedFile) "model.bin" = Outcome.error
          ("failed to read parameters: "
            ++ (if (dataOf truncatedFile).length = 0 then "EOF" else "unexpected EOF")) :=
  ⟨rfl, by decide, by decide, by decide, by decide,
    (truncated_rejected linuxMaxAlloc (oneFile truncatedFile) "model.bin" truncatedFile rfl
      (by decide) (by decide) (by decide)).2.1 (by decide)⟩

/-- C15: for every file with a complete header with magic number 20240326 and
version 3 in which at least one of `header[2..7]` is `<= 0`,
`NewGPT2FromCheckpoint` fails with the invalid-config error, which wraps the
error of `Validate`, and returns no model; and whenever a model is returned,
its configuration is the one read from `header[2..7]`, never another one such
as the default configuration, and it passes `Validate`. -/
theorem invalid_config_rejected (maxAlloc : Nat)
    (fs : String → Except String (List Byte)) (path : String)
    (file : List Byte) (hfile : fs path = Except.ok file) :
    (4 * 256 ≤ file.length → headerAt (headerOf file) 0 = 20240326 →
        headerAt (headerOf file) 1 = 3 →
        (headerAt (headerOf file) 2 ≤ 0 ∨ headerAt (headerOf file) 3 ≤ 0
          ∨ headerAt (headerOf file) 4 ≤ 0 ∨ headerAt (headerOf file) 5 ≤ 0
          ∨ headerAt (headerOf file) 6 ≤ 0 ∨ headerAt (headerOf file) 7 ≤ 0) →
        ∃ cause, (configOfHeader (headerOf file)).Validate.2 = some cause
          ∧ NewGPT2FromCheckpoint maxAlloc fs path = Outcome.error ("invalid config: " ++ cause))
      ∧ (∀ m, NewGPT2FromCheckpoint maxAlloc fs path = Outcome.ok m →
          m.Config = configOfHeader (headerOf file) ∧ m.Config.Validate.2 = none) := by
  rw [newGPT2FromCheckpoint_of_file maxAlloc fs path _ hfile]
  constructor
  · intro hcomplete hmagic hversion hbad
    rw [loadCheckpoint_of_complete _ _ hcomplete]
    have hne : (configOfHeader (headerOf file)).Validate.2 ≠ none := by
      intro hnone
      obtain ⟨h2, h3, h7, h4, h5, h6⟩ := (validate_none_iff _).mp hnone
      have e := configOfHeader_fields (headerOf file)
      rw [e.1] at h2
      rw [e.2.1] at h3
      rw [e.2.2.1] at h4
      rw [e.2.2.2.1] at h5
      rw [e.2.2.2.2.1] at h6
      rw [e.2.2.2.2.2] at h7
      omega
    obtain ⟨cause, hcause⟩ := Option.ne_none_iff_exists'.mp hne
    refine ⟨cause, hcause, ?_⟩
    unfold loadAfterHeader
    rw [if_neg (not_not.mpr hmagic), if_neg (not_not.mpr hversion), hcause]
  · intro m hm
    obtain ⟨_, _, hcfg⟩ := loadCheckpoint_config maxAlloc file m hm
    exact ⟨hcfg, (loadCheckpoint_ok maxAlloc file m hm).1⟩

/-- Witness: a header with `num_layers = 0`. -/
theorem invalid_config_rejected_witness :
    oneFile badConfigFile "model.bin" = Except.ok badConfigFile
      ∧ 4 * 256 ≤ badConfigFile.length
      ∧ headerAt (headerOf badConfigFile) 0 = 20240326
      ∧ headerAt (headerOf badConfigFile) 1 = 3
      ∧ headerAt (headerOf badConfigFile) 4 ≤ 0
      ∧ ∃ cause, (configOfHeader (headerOf badConfigFile)).Validate.2 = some cause
          ∧ NewGPT2FromCheckpoint linuxMaxAlloc (oneFile badConfigFile) "model.bin"
              = Outcome.error ("invalid config: " ++ cause) :=
  ⟨rfl, by decide, by decide, by decide, by decide,
    (invalid_config_rejected linuxMaxAlloc (oneFile badConfigFile) "model.bin" badConfigFile rfl).1
      (by decide) (by decide) (by decide) (Or.inr (Or.inr (Or.inl (by decide))))⟩

/-- C16: header positions 8 to 255 are ignored. For any two files with
complete headers that agree on `header[0..7]` and on the data after the header,
`NewGPT2FromCheckpoint` gives the same outcome: the same error, or the same
model (configuration, layout, `NumParameters` and buffer). -/
theorem reserved_header_ignored (maxAlloc : Nat)
    (fs1 fs2 : String → Except String (List Byte))
    (path1 path2 : String) (file1 file2 : List Byte)
    (hfile1 : fs1 path1 = Except.ok file1) (hfile2 : fs2 path2 = Except.ok file2)
    (hcomplete1 : 4 * 256 ≤ file1.length) (hcomplete2 : 4 * 256 ≤ file2.length)
    (hhead : ∀ i, i < 8 → headerAt (headerOf file1) i = headerAt (headerOf file2) i)
    (hdata : dataOf file1 = dataOf file2) :
    NewGPT2FromCheckpoint maxAlloc fs1 path1 = NewGPT2FromCheckpoint maxAlloc fs2 path2 := by
  rw [newGPT2FromCheckpoint_of_file maxAlloc fs1 path1 _ hfile1,
    newGPT2FromCheckpoint_of_file maxAlloc fs2 path2 _ hfile2,
    loadCheckpoint_of_complete _ _ hcomplete1, loadCheckpoint_of_complete _ _ hcomplete2, hdata]
  exact loadAfterHeader_congr _ _ _ _ hhead

/-- Witness: `smallFile` and the same file with reserved header entries set. -/
theorem reserved_header_ignored_witness :
    oneFile smallFile "model.bin" = Except.ok smallFile
      ∧ oneFile paddedFile "model.bin" = Except.ok paddedFile
      ∧ 4 * 256 ≤ smallFile.length ∧ 4 * 256 ≤ paddedFile.length
      ∧ (∀ i, i < 8 → headerAt (headerOf smallFile) i = headerAt (headerOf paddedFile) i)
      ∧ dataOf smallFile = dataOf paddedFile
      ∧ headerOf smallFile ≠ headerOf paddedFile
      ∧ NewGPT2FromCheckpoint linuxMaxAlloc (oneFile smallFile) "model.bin"
          = NewGPT2FromCheckpoint linuxMaxAlloc (oneFile paddedFile) "model.bin" :=
  ⟨rfl, rfl, by decide, by decide, by decide, by decide, by decide,
    reserved_header_ignored linuxMaxAlloc (oneFile smallFile) (oneFile paddedFile) "model.bin" "model.bin"
      smallFile paddedFile rfl rfl (by decide) (by decide) (by decide) (by decide)⟩

/-- C17, as stated, fails: the file that holds the valid header `hugeHeader`
followed by 3377700005740545 values holds at least the layout total
3377700005740544 of that header, and `NewGPT2FromCheckpoint` does not succeed:
`make` panics, the buffer being beyond the allocation limit of the runtime. -/
theorem enough_data_beyond_alloc_limit :
    validHeader hugeHeader
      ∧ totalOfHeader hugeHeader = 3377700005740544
      ∧ 4 * 256 ≤ (hugeCheckpoint 3377700005740545).length
      ∧ headerOf (hugeCheckpoint 3377700005740545) = hugeHeader
      ∧ (dataOf (hugeCheckpoint 3377700005740545)).length = 4 * 3377700005740545
      ∧ NewGPT2FromCheckpoint linuxMaxAlloc (oneFile (hugeCheckpoint 3377700005740545))
          "model.bin" = Outcome.panic "makeslice: len out of range" :=
  ⟨by decide, by decide, (hugeCheckpoint_panics _).1, (hugeCheckpoint_panics _).2.1,
    (hugeCheckpoint_panics _).2.2.1, (hugeCheckpoint_panics _).2.2.2⟩

/-- C17, amended: for every file with a valid header whose layout total
`total_element_count`, as `calculateParameterSizes` computes it, is a length
that `make` accepts (not negative, the buffer within the allocation limit of
the Go runtime), followed by at least `total_element_count` `float32` values,
`NewGPT2FromCheckpoint` succeeds and the buffer of the model is exactly the
first `total_element_count` values after the header in stream order
(`Parameters[i]` is the `i`-th value for every `i < total_element_count`); a
file that holds more values is not rejected and the surplus is not loaded. -/
theorem parameters_loaded_in_order (maxAlloc : Nat)
    (fs : String → Except String (List Byte)) (path : String)
    (file : List Byte) (hfile : fs path = Except.ok file) (hcomplete : 4 * 256 ≤ file.length)
    (hvalid : validHeader (headerOf file))
    (hlimit : withinAllocLimit maxAlloc (totalOfHeader (headerOf file)))
    (henough : 4 * totalOfHeader (headerOf file) ≤ ((dataOf file).length : Int)) :
    ∃ m, NewGPT2FromCheckpoint maxAlloc fs path = Outcome.ok m
      ∧ m.NumParameters = totalOfHeader (headerOf file)
      ∧ (m.Parameters.length : Int) = totalOfHeader (headerOf file)
      ∧ m.Parameters
          = (decodeFloat32s (dataOf file)).take (totalOfHeader (headerOf file)).toNat
      ∧ ∀ i : Nat, (i : Int) < totalOfHeader (headerOf file) →
          m.Parameters[i]? = (decodeFloat32s (dataOf file))[i]? := by
  have htotal : 0 ≤ totalOfHeader (headerOf file) := hlimit.1
  have hload : NewGPT2FromCheckpoint maxAlloc fs path = Outcome.ok
      { layoutOf (configOfHeader (headerOf file)) with
        Parameters := (decodeFloat32s (dataOf file)).take
          (layoutOf (configOfHeader (headerOf file))).NumParameters.toNat } := by
    rw [newGPT2FromCheckpoint_of_file maxAlloc fs path _ hfile,
      loadCheckpoint_of_complete _ _ hcomplete, loadAfterHeader_of_valid _ _ _ hvalid,
      readParameters_of_enough _ _ _ hlimit
        (by unfold totalOfHeader at henough htotal; omega)]
  refine ⟨_, hload, rfl, ?_, rfl, ?_⟩
  · have hl := (loadCheckpoint_ok maxAlloc file _ (by
      rw [← newGPT2FromCheckpoint_of_file maxAlloc fs path _ hfile]; exact hload)).2.2.2.2.2
    exact hl
  · intro i hi
    change ((decodeFloat32s (dataOf file)).take _)[i]? = _
    rw [List.getElem?_take]
    unfold totalOfHeader at hi
    rw [if_pos (by omega)]

/-- Witness: `smallFile` followed by five surplus bytes. -/
theorem parameters_loaded_in_order_witness :
    oneFile longFile "model.bin" = Except.ok longFile
      ∧ 4 * 256 ≤ longFile.length
      ∧ validHeader (headerOf longFile)
      ∧ withinAllocLimit linuxMaxAlloc (totalOfHeader (headerOf longFile))
      ∧ 4 * totalOfHeader (headerOf longFile) ≤ ((dataOf longFile).length : Int)
      ∧ ∃ m, NewGPT2FromCheckpoint linuxMaxAlloc (oneFile longFile) "model.bin" = Outcome.ok m
          ∧ m.NumParameters = totalOfHeader (headerOf longFile)
          ∧ (m.Parameters.length : Int) = totalOfHeader (headerOf longFile)
          ∧ m.Parameters
              = (decodeFloat32s (dataOf longFile)).take (totalOfHeader (headerOf longFile)).toNat
          ∧ ∀ i : Nat, (i : Int) < totalOfHeader (headerOf longFile) →
              m.Parameters[i]? = (decodeFloat32s (dataOf longFile))[i]? :=
  ⟨rfl, by decide, by decide, by decide, by decide,
    parameters_loaded_in_order linuxMaxAlloc (oneFile longFile) "model.bin" longFile rfl
      (by decide) (by decide) (by decide) (by decide)⟩

/-- C18: the total is a pure function of the configuration with a closed
form. For every model whose configuration has `num_layers >= 0`,
`calculateParameterSizes` sets `NumParameters` to the value of the size
calculator `totalElementCount`, which builds no map and no buffer and is the
Go `int` value of `padded_vocab_size*C + max_seq_len*C
+ num_layers*(12*C*C + 13*C) + 2*C` with `C = channels`; whenever that
expression lies in the `int64` range, `NumParameters` is its value in
unbounded integers. -/
theorem total_closed_form (m : GPT2) (hL : 0 ≤ m.Config.NumLayers) :
    (calculateParameterSizes m).NumParameters = totalElementCount m.Config
      ∧ totalElementCount m.Config
          = wrap64 (m.Config.PaddedVocabSize * m.Config.Channels
              + m.Config.MaxSeqLen * m.Config.Channels
              + m.Config.NumLayers
                  * (12 * m.Config.Channels * m.Config.Channels + 13 * m.Config.Channels)
              + 2 * m.Config.Channels)
      ∧ (-2 ^ 63 ≤ m.Config.PaddedVocabSize * m.Config.Channels
              + m.Config.MaxSeqLen * m.Config.Channels
              + m.Config.NumLayers
                  * (12 * m.Config.Channels * m.Config.Channels + 13 * m.Config.Channels)
              + 2 * m.Config.Channels →
          m.Config.PaddedVocabSize * m.Config.Channels
              + m.Config.MaxSeqLen * m.Config.Channels
              + m.Config.NumLayers
                  * (12 * m.Config.Channels * m.Config.Channels + 13 * m.Config.Channels)
              + 2 * m.Config.Channels < 2 ^ 63 →
          (calculateParameterSizes m).NumParameters
            = m.Config.PaddedVocabSize * m.Config.Channels
              + m.Config.MaxSeqLen * m.Config.Channels
              + m.Config.NumLayers
                  * (12 * m.Config.Channels * m.Config.Channels + 13 * m.Config.Channels)
              + 2 * m.Config.Channels) := by
  have hexact : exactTotal m.Config
      = m.Config.PaddedVocabSize * m.Config.Channels + m.Config.MaxSeqLen * m.Config.Channels
        + m.Config.NumLayers
            * (12 * m.Config.Channels * m.Config.Channels + 13 * m.Config.Channels)
        + 2 * m.Config.Channels := by
    unfold exactTotal
    rw [Int.toNat_of_nonneg hL]
  have hnum := numParameters_any_model m
  rw [hexact] at hnum
  refine ⟨?_, totalElementCount_eq m.Config, ?_⟩
  · rw [hnum, totalElementCount_eq]
  · intro hlo hhi
    rw [hnum]
    exact wrap64_of_range _ hlo hhi

/-- Witness: the fresh model of `smallConfig`, total 90. -/
theorem total_closed_form_witness :
    0 ≤ (newModel smallConfig).Config.NumLayers
      ∧ (calculateParameterSizes (newModel smallConfig)).NumParameters
          = totalElementCount (newModel smallConfig).Config
      ∧ totalElementCount (newModel smallConfig).Config = 90 :=
  ⟨by decide, (total_closed_form (newModel smallConfig) (by decide)).1, by decide⟩

/-- C19, as stated, fails: the model loaded from the 1024-byte file
`zeroTotalFile` has an empty buffer, the key `ln_f.weight` has a negative
offset, the region of `Layer 0_ln1.weight` ends beyond the buffer, and
`GetParameter` panics on both keys. -/
theorem loaded_region_out_of_bounds :
    NewGPT2FromCheckpoint linuxMaxAlloc (oneFile zeroTotalFile) "model.bin" = Outcome.ok zeroTotalModel
      ∧ "ln_f.weight" ∈ mapKeys zeroTotalModel.ParamOffsets
      ∧ mapIndex zeroTotalModel.ParamOffsets "ln_f.weight" < 0
      ∧ (zeroTotalModel.Parameters.length : Int)
          < mapIndex zeroTotalModel.ParamOffsets "Layer 0_ln1.weight"
              + mapIndex zeroTotalModel.ParamSizes "Layer 0_ln1.weight"
      ∧ GetParameter zeroTotalModel "ln_f.weight" = Outcome.panic "slice bounds out of range"
      ∧ GetParameter zeroTotalModel "Layer 0_ln1.weight"
          = Outcome.panic "slice bounds out of range" := by
  decide

/-- C19, amended: for every model returned by a successful
`NewGPT2FromCheckpoint` whose layout total `padded_vocab_size*C
+ max_seq_len*C + num_layers*(12*C*C + 13*C) + 2*C` is below `2^63`, and every
key `n` of its layout, `0 <= ParamOffsets[n]`,
`ParamOffsets[n] + ParamSizes[n] <= len(Parameters)` and `ParamSizes[n] > 0`;
hence the slice expression of `GetParameter` is within bounds and
`GetParameter` returns the region without a panic. -/
theorem loaded_regions_in_bounds (maxAlloc : Nat)
    (fs : String → Except String (List Byte)) (path : String)
    (m : GPT2) (hload : NewGPT2FromCheckpoint maxAlloc fs path = Outcome.ok m)
    (hfit : exactTotal m.Config < 2 ^ 63) (n : String) (hn : n ∈ mapKeys m.ParamOffsets) :
    0 ≤ mapIndex m.ParamOffsets n
      ∧ mapIndex m.ParamOffsets n + mapIndex m.ParamSizes n ≤ (m.Parameters.length : Int)
      ∧ 0 < mapIndex m.ParamSizes n
      ∧ GetParameter m n = Outcome.ok
          ((m.Parameters.drop (mapIndex m.ParamOffsets n).toNat).take
            (mapIndex m.ParamSizes n).toNat) := by
  obtain ⟨file, _, hfile⟩ := newGPT2FromCheckpoint_ok maxAlloc fs path m hload
  obtain ⟨hval, hoffs, hsizes, hnum, hnn, hlen⟩ := loadCheckpoint_ok maxAlloc file m hfile
  obtain ⟨hS, _, hP, hL, _, hC⟩ := (validate_none_iff m.Config).mp hval
  obtain ⟨hpos, hsum⟩ := emissions_of_fit m.Config (le_of_lt hP) (le_of_lt hS) (le_of_lt hC) hfit
  have hT : m.NumParameters = exactTotal m.Config := by
    rw [hnum, (layoutOf_fields m.Config).2.2.1,
      offsetAfter_of_fit _ 0 (le_refl 0) hpos (by rw [hsum]; omega), zero_add, hsum]
  have hkeys : n ∈ mapKeys (emissions m.Config) := by
    rw [hoffs, (mapKeys_layoutOf m.Config).1] at hn
    exact hn
  have hb := region_bounds_of_fit (emissions m.Config) 0 (le_refl 0) hpos
    (by rw [hsum]; omega) (nodup_constructionOrder m.Config) n hkeys
  rw [hsum, zero_add, ← (layoutOf_fields m.Config).1, ← (layoutOf_fields m.Config).2.1,
    ← hoffs, ← hsizes] at hb
  have hsz : 0 < mapIndex m.ParamSizes n := by
    have hmem := mapIndex_mem (emissions m.Config) n hkeys
    rw [hsizes, (layoutOf_fields m.Config).2.1]
    have hex := emissions_eq_exact m.Config (le_of_lt hP) (le_of_lt hS) (le_of_lt hC) hfit
    rw [hex] at hmem ⊢
    exact exactEmissions_pos m.Config hP hS hC _ hmem
  refine ⟨hb.1, by omega, hsz, ?_⟩
  exact getParameter_of_bounds m n hn hb.1 (le_of_lt hsz) (by omega) (by omega)

/-- Witness: a key of the model loaded from `smallFile`. -/
theorem loaded_regions_in_bounds_witness :
    NewGPT2FromCheckpoint linuxMaxAlloc (oneFile smallFile) "model.bin" = Outcome.ok smallModel
      ∧ exactTotal smallModel.Config < 2 ^ 63
      ∧ "Layer 0.mlp.fc.weight" ∈ mapKeys smallModel.ParamOffsets
      ∧ 0 ≤ mapIndex smallModel.ParamOffsets "Layer 0.mlp.fc.weight"
      ∧ mapIndex smallModel.ParamOffsets "Layer 0.mlp.fc.weight"
          + mapIndex smallModel.ParamSizes "Layer 0.mlp.fc.weight"
          ≤ (smallModel.Parameters.length : Int)
      ∧ 0 < mapIndex smallModel.ParamSizes "Layer 0.mlp.fc.weight"
      ∧ GetParameter smallModel "Layer 0.mlp.fc.weight" = Outcome.ok
          ((smallModel.Parameters.drop
              (mapIndex smallModel.ParamOffsets "Layer 0.mlp.fc.weight").toNat).take
            (mapIndex smallModel.ParamSizes "Layer 0.mlp.fc.weight").toNat) :=
  ⟨by decide, by decide, by decide,
    loaded_regions_in_bounds linuxMaxAlloc (oneFile smallFile) "model.bin" smallModel (by decide) (by decide)
      "Layer 0.mlp.fc.weight" (by decide)⟩

/-- C20, as stated, fails: four configurations whose six fields are
strictly positive `int32` values and pass `Validate`. For `zeroTotalConfig` the
exact total is `2^64`, `NumParameters` is 0 (not strictly positive) and the
offset of `ln_f.bias` is negative; for the configuration of `negTotalHeader`
the exact total is positive, `NumParameters` is negative and the loader panics
in `make`; for `wideConfig` the recorded size of `Layer 0.mlp.fc.weight` is
negative, not `4*C*C`; for the configuration of `hugeHeader` nothing wraps and
`NumParameters` is strictly positive, and `make` still panics, the buffer
being beyond the allocation limit of the runtime. -/
theorem int32_header_can_wrap :
    fromHeaderRange zeroTotalConfig
      ∧ zeroTotalConfig.Validate.2 = none
      ∧ exactTotal zeroTotalConfig = 2 ^ 64
      ∧ (layoutOf zeroTotalConfig).NumParameters = 0
      ∧ mapIndex (layoutOf zeroTotalConfig).ParamOffsets "ln_f.bias" = -1073741824
      ∧ fromHeaderRange (configOfHeader negTotalHeader)
      ∧ (configOfHeader negTotalHeader).Validate.2 = none
      ∧ (layoutOf (configOfHeader negTotalHeader)).NumParameters < 0
      ∧ 0 < exactTotal (configOfHeader negTotalHeader)
      ∧ NewGPT2FromCheckpoint linuxMaxAlloc (oneFile negTotalFile) "model.bin"
          = Outcome.panic "makeslice: len out of range"
      ∧ fromHeaderRange wideConfig
      ∧ mapIndex (layoutOf wideConfig).ParamSizes "Layer 0.mlp.fc.weight" = -17179869180
      ∧ 4 * wideConfig.Channels * wideConfig.Channels = 18446744056529682436
      ∧ fromHeaderRange (configOfHeader hugeHeader)
      ∧ (configOfHeader hugeHeader).Validate.2 = none
      ∧ exactTotal (configOfHeader hugeHeader) = 3377700005740544
      ∧ (layoutOf (configOfHeader hugeHeader)).NumParameters = 3377700005740544
      ∧ makeFloat32s linuxMaxAlloc (layoutOf (configOfHeader hugeHeader)).NumParameters
          = none := by
  decide

/-- C20, amended: for every configuration whose six fields are `int32`
values in `1..2^31-1` (so that it passes `Validate`) and whose layout total
`padded_vocab_size*C + max_seq_len*C + num_layers*(12*C*C + 13*C) + 2*C` is
below `2^63`, every size, every offset and the final `NumParameters` computed
by `calculateParameterSizes` in 64-bit arithmetic equal their exact values in
unbounded integers; in particular `NumParameters` is strictly positive, and
the buffer allocation `make([]float32, NumParameters)` of the loader has a
valid length when the size of the buffer, `4*NumParameters` bytes, is within
the allocation limit of the Go runtime, and panics otherwise. -/
theorem no_wrap_when_total_fits (maxAlloc : Nat) (cfg : GPT2Config)
    (hrange : fromHeaderRange cfg) (hfit : exactTotal cfg < 2 ^ 63) :
    cfg.Validate.2 = none
      ∧ (layoutOf cfg).ParamSizes = exactEmissions cfg
      ∧ (layoutOf cfg).ParamOffsets = exactOffsetsFrom 0 (exactEmissions cfg)
      ∧ (layoutOf cfg).NumParameters = exactTotal cfg
      ∧ 0 < (layoutOf cfg).NumParameters
      ∧ (withinAllocLimit maxAlloc (exactTotal cfg) →
          makeFloat32s maxAlloc (layoutOf cfg).NumParameters
            = some (List.replicate (exactTotal cfg).toNat 0))
      ∧ (¬ withinAllocLimit maxAlloc (exactTotal cfg) →
          makeFloat32s maxAlloc (layoutOf cfg).NumParameters = none) := by
  obtain ⟨⟨hS, _⟩, ⟨hV, _⟩, ⟨hL, _⟩, ⟨hH, _⟩, ⟨hC, _⟩, ⟨hP, _⟩⟩ := hrange
  obtain ⟨hpos, hsum⟩ := emissions_of_fit cfg (by omega) (by omega) (by omega) hfit
  have hex := emissions_eq_exact cfg (by omega) (by omega) (by omega) hfit
  have hnum : (layoutOf cfg).NumParameters = exactTotal cfg := by
    rw [(layoutOf_fields cfg).2.2.1,
      offsetAfter_of_fit _ 0 (le_refl 0) hpos (by rw [hsum]; omega), zero_add, hsum]
  refine ⟨(validate_none_iff cfg).mpr ⟨by omega, by omega, by omega, by omega, by omega,
    by omega⟩, ?_, ?_, hnum, ?_, ?_, ?_⟩
  · rw [(layoutOf_fields cfg).2.1, hex]
  · rw [(layoutOf_fields cfg).1,
      offsetsFrom_eq_exact _ 0 (le_refl 0) hpos (by rw [hsum]; omega), hex]
  · rw [hnum]
    unfold exactTotal
    have hcc : 0 < cfg.Channels * cfg.Channels := mul_pos (by omega) (by omega)
    have hPC : 0 < cfg.PaddedVocabSize * cfg.Channels := mul_pos (by omega) (by omega)
    have hSC : 0 < cfg.MaxSeqLen * cfg.Channels := mul_pos (by omega) (by omega)
    have hX : 0 ≤ (cfg.NumLayers.toNat : Int)
        * (12 * cfg.Channels * cfg.Channels + 13 * cfg.Channels) :=
      mul_nonneg (Int.ofNat_nonneg _) (by nlinarith)
    omega
  · intro hw
    rw [hnum]
    exact makeFloat32s_of_within _ _ hw
  · intro hw
    rw [hnum]
    exact makeFloat32s_of_beyond _ _ hw

/-- Witness: the default configuration, under the allocation limit of 64-bit
Linux. -/
theorem no_wrap_when_total_fits_witness :
    fromHeaderRange NewDefaultConfig ∧ exactTotal NewDefaultConfig < 2 ^ 63
      ∧ withinAllocLimit linuxMaxAlloc (exactTotal NewDefaultConfig)
      ∧ (layoutOf NewDefaultConfig).NumParameters = exactTotal NewDefaultConfig
      ∧ 0 < (layoutOf NewDefaultConfig).NumParameters
      ∧ makeFloat32s linuxMaxAlloc (layoutOf NewDefaultConfig).NumParameters
          = some (List.replicate (exactTotal NewDefaultConfig).toNat 0) :=
  have h := no_wrap_when_total_fits linuxMaxAlloc NewDefaultConfig (by decide) (by decide)
  ⟨by decide, by decide, by decide, h.2.2.2.1, h.2.2.2.2.1, h.2.2.2.2.2.1 (by decide)⟩

end LlmGo
